import Mathlib

set_option maxHeartbeats 1000000
set_option maxRecDepth 8192

namespace Firearch

/-! Shallow embedding of the schema component of the firearch repository
(src/schema.js): field-type validation and coercion dispatch, document
build with deletion semantics, reference collapsing (depopulate),
relationship resolution (populate), virtual fields, and the four
append-only registries.  JavaScript values are modelled by the inductive
type JsVal; documents are association lists in insertion order; machine
effects (mutation of the source object, thrown errors, the sequence of
store fetches) are made explicit by state passing, Except, and a trace. -/

/-- The universe of JavaScript runtime values the schema manipulates.
Numbers are modelled as integers (no claim involves fractional values);
vSentinel is the store delete marker produced by the client library. -/
inductive JsVal where
  | vUndef : JsVal
  | vNull : JsVal
  | vBool : Bool → JsVal
  | vNum : Int → JsVal
  | vStr : String → JsVal
  | vArr : List JsVal → JsVal
  | vObj : List (String × JsVal) → JsVal
  | vSentinel : JsVal

/-- A JavaScript object: keys to values, in insertion order. -/
abbrev Obj := List (String × JsVal)

/-- Kinds of scalar field declarations (the String, Boolean, Date,
Number constructors used as type tags in a field-definition map). -/
inductive ScalarKind where
  | text : ScalarKind
  | boolean : ScalarKind
  | date : ScalarKind
  | number : ScalarKind
deriving DecidableEq

/-- A declared field shape: a scalar constructor tag, an object of the
form with a ref key (Reference), an array literal `[elem]`, or any other
plain object (free-form nested object, always valid). -/
inductive FieldDef where
  | scalar : ScalarKind → FieldDef
  | ref : String → FieldDef
  | arrayOf : FieldDef → FieldDef
  | freeform : FieldDef
deriving DecidableEq

/-- `typeof fieldDefs[key] === 'object'`: true for ref objects, array
literals and free-form objects; the scalar constructors are functions. -/
def isObjectDef : FieldDef → Bool
  | .scalar _ => false
  | _ => true

/-- `typeof d === 'object' && Object.keys(d).includes('ref')`: only a
Reference declaration; an array's keys are indices, a free-form object
in this model has no ref key. -/
def isRefDef : FieldDef → Bool
  | .ref _ => true
  | _ => false

/-- `d instanceof Array`. -/
def isArrayDef : FieldDef → Bool
  | .arrayOf _ => true
  | _ => false

/-- `d[0]` of an array declaration. -/
def elem0 : FieldDef → Option FieldDef
  | .arrayOf e => some e
  | _ => none

/-- `typeof v === 'undefined'`. -/
def isUndef : JsVal → Bool
  | .vUndef => true
  | _ => false

/-- `typeof v === 'object'` (true for null, arrays, objects and the
sentinel object). -/
def typeofObject : JsVal → Bool
  | .vNull => true
  | .vArr _ => true
  | .vObj _ => true
  | .vSentinel => true
  | _ => false

/-- JavaScript truthiness. -/
def truthy : JsVal → Bool
  | .vUndef => false
  | .vNull => false
  | .vBool b => b
  | .vNum n => decide (n ≠ 0)
  | .vStr s => decide (s ≠ String.mk [])
  | .vArr _ => true
  | .vObj _ => true
  | .vSentinel => true

/-- First binding of a key in an object, as JavaScript property lookup. -/
def getOwn : Obj → String → Option JsVal
  | [], _ => none
  | (k0, v) :: rest, k => if k0 = k then some v else getOwn rest k

/-- `o.hasOwnProperty(k)`. -/
def hasOwn (o : Obj) (k : String) : Bool :=
  (getOwn o k).isSome

/-- `o[k]` (undefined when the key is absent). -/
def getProp (o : Obj) (k : String) : JsVal :=
  (getOwn o k).getD JsVal.vUndef

/-- `o[k] = v`: update the existing binding in place, else append. -/
def setKey : Obj → String → JsVal → Obj
  | [], k, v => [(k, v)]
  | (k0, v0) :: rest, k, v =>
    if k0 = k then (k, v) :: rest else (k0, v0) :: setKey rest k v

/-- `delete o[k]`. -/
def delKey : Obj → String → Obj
  | [], _ => []
  | (k0, v0) :: rest, k =>
    if k0 = k then delKey rest k else (k0, v0) :: delKey rest k

/-- Lookup in the field-definition map. -/
def lookupFd : List (String × FieldDef) → String → Option FieldDef
  | [], _ => none
  | (k0, fd) :: rest, k => if k0 = k then some fd else lookupFd rest k

def sUndefined : String := "undefined"
def sNull : String := "null"
def sTrue : String := "true"
def sFalse : String := "false"
def sObjObj : String := "[object Object]"
def sEmpty : String := ""
def sComma : String := ","

mutual
/-- JavaScript template-literal stringification of a value, as used by
the error messages of _validateField (String(v)). -/
def jsToString : JsVal → String
  | .vUndef => sUndefined
  | .vNull => sNull
  | .vBool b => cond b sTrue sFalse
  | .vNum n => toString n
  | .vStr s => s
  | .vSentinel => sObjObj
  | .vObj _ => sObjObj
  | .vArr xs => jsArrBody xs

/-- Array element stringification: null and undefined elements render
as the empty string inside Array.prototype.toString. -/
def jsElemToString : JsVal → String
  | .vUndef => sEmpty
  | .vNull => sEmpty
  | .vBool b => cond b sTrue sFalse
  | .vNum n => toString n
  | .vStr s => s
  | .vSentinel => sObjObj
  | .vObj _ => sObjObj
  | .vArr xs => jsArrBody xs

/-- Elements joined with commas. -/
def jsArrBody : List JsVal → String
  | [] => sEmpty
  | [x] => jsElemToString x
  | x :: y :: xs => jsElemToString x ++ sComma ++ jsArrBody (y :: xs)
end

/-- Modelled from the spec: the per-kind type modules required by
src/schema.js (./types/string, ./types/boolean, ./types/date,
./types/number, ./types/ref) are not under src/.  Section 6 of the spec
specifies each only as a capability set with validate, validateArray,
getValue and getValueArray, so the schema component is parametrised
over them. -/
structure TypeModules where
  stringValidate : JsVal → Bool
  stringValidateArray : JsVal → Bool
  stringGetValue : JsVal → JsVal
  stringGetValueArray : JsVal → JsVal
  booleanValidate : JsVal → Bool
  booleanValidateArray : JsVal → Bool
  booleanGetValue : JsVal → JsVal
  booleanGetValueArray : JsVal → JsVal
  dateValidate : JsVal → Bool
  dateValidateArray : JsVal → Bool
  dateGetValue : JsVal → JsVal
  dateGetValueArray : JsVal → JsVal
  numberValidate : JsVal → Bool
  numberValidateArray : JsVal → Bool
  numberGetValue : JsVal → JsVal
  numberGetValueArray : JsVal → JsVal
  refValidate : JsVal → Bool
  refValidateArray : JsVal → Bool
  refGetValue : JsVal → JsVal
  refGetValueArray : JsVal → JsVal

def msgPropA : String := " property \x27"
def msgPropB : String := "\x27 is invalid. Expected "
def msgPropC : String := ". Value: "
def msgDot : String := "."
def msgProcA : String := "Error processing "
def msgProcB : String := ". Operation Failed. Inner Exception: "
def lblString : String := "String"
def lblBoolean : String := "Boolean"
def lblDate : String := "Date"
def lblNumber : String := "Number"
def lblDocId : String := "Document ID"
def lblArrString : String := "Array<String>"
def lblArrDocId : String := "Array<Document ID>"

/-- The message of the Error thrown by _validateField. -/
def vmsg (modelName key lbl : String) (value : JsVal) : String :=
  modelName ++ msgPropA ++ key ++ msgPropB ++ lbl ++ msgPropC ++ jsToString value ++ msgDot

/-- The message of the Error rethrown by _build at line 151. -/
def buildErr (modelName inner : String) : String :=
  msgProcA ++ modelName ++ msgProcB ++ inner

/-- _validateField (src/schema.js lines 36-88): the sequential if chain
dispatching on the declared shape.  Each failing branch throws; the
returned flag is the local variable valid, which is true on every
non-throwing path for the five modelled shapes (each scalar branch sets
it after a passing validation and the final typeof-object branch at
line 83 sets it for every object-shaped declaration). -/
def validateField (tm : TypeModules) (modelName key : String) (fd : FieldDef) (value : JsVal) : Except String Bool :=
  if fd = FieldDef.scalar ScalarKind.text ∧ tm.stringValidate value = false then
    Except.error (vmsg modelName key lblString value)
  else if fd = FieldDef.scalar ScalarKind.boolean ∧ tm.booleanValidate value = false then
    Except.error (vmsg modelName key lblBoolean value)
  else if fd = FieldDef.scalar ScalarKind.date ∧ tm.dateValidate value = false then
    Except.error (vmsg modelName key lblDate value)
  else if fd = FieldDef.scalar ScalarKind.number ∧ tm.numberValidate value = false then
    Except.error (vmsg modelName key lblNumber value)
  else if isRefDef fd = true ∧ tm.refValidate value = false then
    Except.error (vmsg modelName key lblDocId value)
  else if elem0 fd = some (FieldDef.scalar ScalarKind.text) ∧ tm.stringValidateArray value = false then
    Except.error (vmsg modelName key lblArrString value)
  else if (elem0 fd).any isRefDef = true ∧ tm.refValidateArray value = false then
    Except.error (vmsg modelName key lblArrDocId value)
  else
    Except.ok true

/-- _getValue (src/schema.js lines 90-121).  The let chain mirrors the
sequential assignments to retVal; the final `typeof === 'object'` check
at lines 116-118 runs after the reference and array branches and
overwrites their computed coercions with the raw value, so only the
four scalar branches survive to the returned value. -/
def getValue (tm : TypeModules) (fd : FieldDef) (value : JsVal) : JsVal :=
  let r1 := if fd = FieldDef.scalar ScalarKind.text then tm.stringGetValue value else JsVal.vNull
  let r2 := if fd = FieldDef.scalar ScalarKind.boolean then tm.booleanGetValue value else r1
  let r3 := if fd = FieldDef.scalar ScalarKind.date then tm.dateGetValue value else r2
  let r4 := if fd = FieldDef.scalar ScalarKind.number then tm.numberGetValue value else r3
  let r5 := if isRefDef fd then tm.refGetValue value else r4
  let r6 := if elem0 fd = some (FieldDef.scalar ScalarKind.text) then tm.stringGetValueArray value else r5
  let r7 := if (elem0 fd).any isRefDef then tm.refGetValueArray value else r6
  if isObjectDef fd then value else r7

def keyId : String := "_id"
def keyC : String := "_c"
def keyU : String := "_u"
def keyLength : String := "length"
def eqOp : String := "=="

def typeErrNullId : String := "TypeError: Cannot read properties of null (reading \x27_id\x27)"
def typeErrUndefId : String := "TypeError: Cannot read properties of undefined (reading \x27_id\x27)"
def typeErrFindById : String := "TypeError: Cannot read properties of undefined (reading \x27findById\x27)"
def typeErrFindVirt : String := "TypeError: Cannot read properties of undefined (reading \x27find\x27)"
def typeErrNotIterable : String := "TypeError: value is not iterable"

/-- `v._id` as JavaScript evaluates it: throws on null and undefined,
yields the _id field of an object, and undefined on everything else. -/
def idOf : JsVal → Except String JsVal
  | .vNull => Except.error typeErrNullId
  | .vUndef => Except.error typeErrUndefId
  | .vObj fields => Except.ok (getProp fields keyId)
  | _ => Except.ok JsVal.vUndef

/-- `for (const x of v)`: arrays iterate their elements, strings their
characters; anything else throws. -/
def iterateVals : JsVal → Except String (List JsVal)
  | .vArr xs => Except.ok xs
  | .vStr s => Except.ok (s.toList.map (fun c => JsVal.vStr c.toString))
  | _ => Except.error typeErrNotIterable

/-- The element loop of _depopulate (lines 179-186): push value._id for
object-typed entries and the entry itself otherwise, stopping at the
first thrown property access. -/
def depopElems : List JsVal → Except String (List JsVal)
  | [] => Except.ok []
  | v :: rest =>
    if typeofObject v then
      match idOf v with
      | Except.error e => Except.error e
      | Except.ok i => (depopElems rest).map (fun t => i :: t)
    else
      (depopElems rest).map (fun t => v :: t)

/-- _depopulate (src/schema.js lines 172-198): reference collapsing,
mutating the source object in place (returned explicitly here). -/
def depopulate (fd : FieldDef) (src : Obj) (key : String) : Except String Obj :=
  let isRefArray := (elem0 fd).any isRefDef
  let isRef := isRefDef fd
  if isRefArray then
    match iterateVals (getProp src key) with
    | Except.error e => Except.error e
    | Except.ok vs =>
      match depopElems vs with
      | Except.error e => Except.error e
      | Except.ok dep => Except.ok (setKey src key (JsVal.vArr dep))
  else if isRef then
    let value := getProp src key
    if typeofObject value then
      match idOf value with
      | Except.error e => Except.error e
      | Except.ok i => Except.ok (setKey src key i)
    else
      Except.ok (setKey src key value)
  else
    Except.ok src

/-- One iteration of the for-in loop of _build (lines 138-154) at a
declared key: the delete-marker branch, the validate/coerce branch
(with optional reference collapsing first and the catch at lines
149-152 rethrowing with the model name), or a skip.  The state is the
pair (source object, result object under construction); an error also
carries the source, whose in-place depopulation mutations survive the
throw. -/
def buildStep (tm : TypeModules) (modelName : String) (includeDeletes cleanRefs : Bool) (key : String) (fd : FieldDef) (src ret : Obj) : Except (String × Obj) (Obj × Obj) :=
  if hasOwn src key && isUndef (getProp src key) && includeDeletes then
    Except.ok (src, setKey ret key JsVal.vSentinel)
  else if hasOwn src key && !(isUndef (getProp src key)) then
    match (if cleanRefs then depopulate fd src key else Except.ok src) with
    | Except.error e => Except.error (buildErr modelName e, src)
    | Except.ok src1 =>
      match validateField tm modelName key fd (getProp src1 key) with
      | Except.error e => Except.error (buildErr modelName e, src1)
      | Except.ok _ => Except.ok (src1, setKey ret key (getValue tm fd (getProp src1 key)))
  else
    Except.ok (src, ret)

/-- The whole for-in loop of _build over the field-definition map. -/
def buildFields (tm : TypeModules) (modelName : String) (includeDeletes cleanRefs : Bool) : List (String × FieldDef) → Obj → Obj → Except (String × Obj) (Obj × Obj)
  | [], src, ret => Except.ok (src, ret)
  | (key, fd) :: rest, src, ret =>
    match buildStep tm modelName includeDeletes cleanRefs key fd src ret with
    | Except.error e => Except.error e
    | Except.ok (src1, ret1) => buildFields tm modelName includeDeletes cleanRefs rest src1 ret1

/-- _build (src/schema.js lines 136-170) with the final source object
made explicit: the per-key loop, then the unconditional _id copy, the
truthiness-guarded _c and _u copies, and the removeId deletion.  The
first component is the outcome (the fresh result object, or the thrown
message), the second the source object after any in-place reference
collapsing. -/
def buildS (tm : TypeModules) (modelName : String) (fieldDefs : List (String × FieldDef)) (src : Obj) (removeId includeDeletes cleanRefs : Bool) : Except String Obj × Obj :=
  match buildFields tm modelName includeDeletes cleanRefs fieldDefs src [] with
  | Except.error (e, src1) => (Except.error e, src1)
  | Except.ok (src1, ret0) =>
    let ret1 := setKey ret0 keyId (getProp src1 keyId)
    let ret2 := if truthy (getProp src1 keyC) then setKey ret1 keyC (getProp src1 keyC) else ret1
    let ret3 := if truthy (getProp src1 keyU) then setKey ret2 keyU (getProp src1 keyU) else ret2
    let ret4 := if removeId then delKey ret3 keyId else ret3
    (Except.ok ret4, src1)

/-- The caller-visible outcome of _build. -/
def build (tm : TypeModules) (modelName : String) (fieldDefs : List (String × FieldDef)) (src : Obj) (removeId includeDeletes cleanRefs : Bool) : Except String Obj :=
  (buildS tm modelName fieldDefs src removeId includeDeletes cleanRefs).1

/-- A populate descriptor: a field path and a target model name. -/
structure PopulateDef where
  path : String
  model : String
deriving DecidableEq

/-- A pre-operation hook registry entry; the callback is modelled as an
identifying token, since only registration identity is claimed. -/
structure PreOpEntry where
  operation : String
  cb : Nat
deriving DecidableEq

/-- A virtual-field descriptor (ref, localField, foreignField). -/
structure VirtualDescr where
  ref : String
  localField : String
  foreignField : String
deriving DecidableEq

/-- A virtual registry entry. -/
structure VirtualEntry where
  fieldName : String
  virtualDef : VirtualDescr
deriving DecidableEq

/-- An upload registry entry. -/
structure UploadEntry where
  storagePath : String
  path : String
deriving DecidableEq

/-- An external model as consumed during populate and virtual
resolution (spec section 6): a name, a by-id fetch and a filtered find.
The fetches are pure stubs, which is faithful because resolution is
strictly sequential. -/
structure ModelStub where
  modelName : String
  findById : JsVal → Bool → JsVal
  find : String → String → JsVal → Bool → JsVal

/-- `this._models.find(m => m._modelName === modelName)`. -/
def findModel (models : List ModelStub) (name : String) : Option ModelStub :=
  models.find? (fun m => m.modelName = name)

/-- The element loop of _doPopulates for an array field, via
asyncForEach.  Modelled from the spec: asyncForEach lives in ./utils
which is not under src/; the spec fixes it to strictly sequential
iteration over the elements in input order.  Undefined entries are
skipped; each fetch on a missing model throws; the second component
records the sequence of (model name, identity) fetches actually
issued. -/
def popFetch (mdl : Option ModelStub) (mName : String) : List JsVal → Except String (List JsVal × List (String × JsVal))
  | [] => Except.ok ([], [])
  | r :: rest =>
    if isUndef r then popFetch mdl mName rest
    else
      match mdl with
      | none => Except.error typeErrFindById
      | some m =>
        match popFetch mdl mName rest with
        | Except.error e => Except.error e
        | Except.ok (res, tr) => Except.ok (m.findById r true :: res, (mName, r) :: tr)

/-- `v.length > 0` guarded by truthiness in _doPopulates line 209. -/
def lenPos : JsVal → Bool
  | .vArr xs => decide (0 < xs.length)
  | .vStr s => decide (0 < s.length)
  | .vObj fields =>
    match getOwn fields keyLength with
    | some (JsVal.vNum n) => decide (0 < n)
    | _ => false
  | _ => false

/-- One populate descriptor processed by _doPopulates (src/schema.js
lines 200-226): resolve the target model by name, then either the
array branch (collect sequential fetches, skipping undefined entries,
and overwrite the field — an absent or non-positive-length value
yields the empty array without fetching) or the single-value branch. -/
def doPopulatesStep (models : List ModelStub) (fieldDefs : List (String × FieldDef)) (p : PopulateDef) (obj : Obj) (trace : List (String × JsVal)) : Except String (Obj × List (String × JsVal)) :=
  let mdl := findModel models p.model
  if (lookupFd fieldDefs p.path).any isArrayDef then
    if truthy (getProp obj p.path) && lenPos (getProp obj p.path) then
      match iterateVals (getProp obj p.path) with
      | Except.error e => Except.error e
      | Except.ok vs =>
        match popFetch mdl p.model vs with
        | Except.error e => Except.error e
        | Except.ok (results, tr) => Except.ok (setKey obj p.path (JsVal.vArr results), trace ++ tr)
    else
      Except.ok (setKey obj p.path (JsVal.vArr []), trace)
  else
    if isUndef (getProp obj p.path) then
      Except.ok (obj, trace)
    else
      match mdl with
      | none => Except.error typeErrFindById
      | some m => Except.ok (setKey obj p.path (m.findById (getProp obj p.path) true), trace ++ [(p.model, getProp obj p.path)])

/-- _doPopulates over the registered descriptors in order (exposed to
callers as applyPopulates); the trace accumulates every store fetch. -/
def doPopulates (models : List ModelStub) (fieldDefs : List (String × FieldDef)) : List PopulateDef → Obj → List (String × JsVal) → Except String (Obj × List (String × JsVal))
  | [], obj, trace => Except.ok (obj, trace)
  | p :: rest, obj, trace =>
    match doPopulatesStep models fieldDefs p obj trace with
    | Except.error e => Except.error e
    | Except.ok (obj1, tr1) => doPopulates models fieldDefs rest obj1 tr1

/-- _doVirtuals (src/schema.js lines 228-236, exposed as
applyVirtuals): for each registered virtual in order, resolve the
target model by name and assign the filtered find result; a missing
model makes the method call itself throw. -/
def doVirtuals (models : List ModelStub) : List VirtualEntry → Obj → Except String Obj
  | [], obj => Except.ok obj
  | v :: rest, obj =>
    match findModel models v.virtualDef.ref with
    | none => Except.error typeErrFindVirt
    | some m =>
      doVirtuals models rest (setKey obj v.fieldName (m.find v.virtualDef.foreignField eqOp (getProp obj v.virtualDef.localField) true))

/-- populate (src/schema.js lines 238-244): append only when no entry
with the same path exists. -/
def populateRegister (populates : List PopulateDef) (d : PopulateDef) : List PopulateDef :=
  if populates.any (fun p => p.path = d.path) then populates else populates ++ [d]

/-- pre (lines 246-252): append only when no entry with the same
operation exists. -/
def preRegister (preOps : List PreOpEntry) (operation : String) (cb : Nat) : List PreOpEntry :=
  if preOps.any (fun p => p.operation = operation) then preOps else preOps ++ [{ operation := operation, cb := cb }]

/-- virtual (lines 254-260): append only when no entry with the same
fieldName exists. -/
def virtualRegister (virtuals : List VirtualEntry) (fieldName : String) (vd : VirtualDescr) : List VirtualEntry :=
  if virtuals.any (fun v => v.fieldName = fieldName) then virtuals else virtuals ++ [{ fieldName := fieldName, virtualDef := vd }]

/-- upload (lines 262-268): append only when no entry with the same
path exists. -/
def uploadRegister (uploads : List UploadEntry) (storagePath path : String) : List UploadEntry :=
  if uploads.any (fun u => u.path = path) then uploads else uploads ++ [{ storagePath := storagePath, path := path }]

/-- v is a string value. -/
def isStrVal : JsVal → Bool
  | .vStr _ => true
  | _ => false

/-- v is a boolean value. -/
def isBoolVal : JsVal → Bool
  | .vBool _ => true
  | _ => false

/-- v is a numeric value. -/
def isNumVal : JsVal → Bool
  | .vNum _ => true
  | _ => false

/-- v is an array whose elements all satisfy q. -/
def isArrOf (q : JsVal → Bool) : JsVal → Bool
  | .vArr xs => xs.all q
  | _ => false

/-- A permissive type-module instance: every value valid, identity
coercion. -/
def tmId : TypeModules where
  stringValidate := fun _ => true
  stringValidateArray := fun _ => true
  stringGetValue := fun v => v
  stringGetValueArray := fun v => v
  booleanValidate := fun _ => true
  booleanValidateArray := fun _ => true
  booleanGetValue := fun v => v
  booleanGetValueArray := fun v => v
  dateValidate := fun _ => true
  dateValidateArray := fun _ => true
  dateGetValue := fun v => v
  dateGetValueArray := fun v => v
  numberValidate := fun _ => true
  numberValidateArray := fun _ => true
  numberGetValue := fun v => v
  numberGetValueArray := fun v => v
  refValidate := fun _ => true
  refValidateArray := fun _ => true
  refGetValue := fun v => v
  refGetValueArray := fun v => v

/-- A shape-checking type-module instance: each kind validates its own
value shape (dates modelled as numbers, identities as strings),
identity coercion. -/
def tmStrict : TypeModules where
  stringValidate := isStrVal
  stringValidateArray := isArrOf isStrVal
  stringGetValue := fun v => v
  stringGetValueArray := fun v => v
  booleanValidate := isBoolVal
  booleanValidateArray := isArrOf isBoolVal
  booleanGetValue := fun v => v
  booleanGetValueArray := fun v => v
  dateValidate := isNumVal
  dateValidateArray := isArrOf isNumVal
  dateGetValue := fun v => v
  dateGetValueArray := fun v => v
  numberValidate := isNumVal
  numberValidateArray := isArrOf isNumVal
  numberGetValue := fun v => v
  numberGetValueArray := fun v => v
  refValidate := isStrVal
  refValidateArray := isArrOf isStrVal
  refGetValue := fun v => v
  refGetValueArray := fun v => v

def sCoerced : String := "coerced-ref"

/-- A type-module instance whose reference coercion is not the
identity (everything valid). -/
def tmRefCoerce : TypeModules where
  stringValidate := fun _ => true
  stringValidateArray := fun _ => true
  stringGetValue := fun v => v
  stringGetValueArray := fun v => v
  booleanValidate := fun _ => true
  booleanValidateArray := fun _ => true
  booleanGetValue := fun v => v
  booleanGetValueArray := fun v => v
  dateValidate := fun _ => true
  dateValidateArray := fun _ => true
  dateGetValue := fun v => v
  dateGetValueArray := fun v => v
  numberValidate := fun _ => true
  numberValidateArray := fun _ => true
  numberGetValue := fun v => v
  numberGetValueArray := fun v => v
  refValidate := fun _ => true
  refValidateArray := fun _ => true
  refGetValue := fun _ => JsVal.vStr sCoerced
  refGetValueArray := fun v => v

/-- A type-module instance whose number-array predicate rejects
everything, to exhibit that _validateField never consults it. -/
def tmNoNumArr : TypeModules where
  stringValidate := fun _ => true
  stringValidateArray := fun _ => true
  stringGetValue := fun v => v
  stringGetValueArray := fun v => v
  booleanValidate := fun _ => true
  booleanValidateArray := fun _ => true
  booleanGetValue := fun v => v
  booleanGetValueArray := fun v => v
  dateValidate := fun _ => true
  dateValidateArray := fun _ => true
  dateGetValue := fun v => v
  dateGetValueArray := fun v => v
  numberValidate := fun _ => true
  numberValidateArray := fun _ => false
  numberGetValue := fun v => v
  numberGetValueArray := fun v => v
  refValidate := fun _ => true
  refValidateArray := fun _ => true
  refGetValue := fun v => v
  refGetValueArray := fun v => v

def mName0 : String := "TestModel"
def target0 : String := "OtherModel"
def missing0 : String := "NoSuchModel"
def kA : String := "a"
def kR : String := "r"
def kS : String := "s"
def kV : String := "v"
def kL : String := "l"
def kF : String := "f"
def idA : String := "id1"
def idB : String := "id2"
def idC : String := "id3"
def sOops : String := "oops"

/-- Concrete data used by counterexamples and witnesses. -/
def defsRefOnly : List (String × FieldDef) := [(kR, FieldDef.ref target0)]
def srcRefStr : Obj := [(kR, JsVal.vStr idA)]
def retRefStr : Obj := [(kR, JsVal.vStr idA), (keyId, JsVal.vUndef)]
def defsNumArr : List (String × FieldDef) := [(kA, FieldDef.arrayOf (FieldDef.scalar ScalarKind.number))]
def srcOops : Obj := [(kA, JsVal.vStr sOops)]
def retOops : Obj := [(kA, JsVal.vStr sOops), (keyId, JsVal.vUndef)]
def defsFree : List (String × FieldDef) := [(kA, FieldDef.freeform)]
def srcAUndef : Obj := [(kA, JsVal.vUndef)]
def retIdUndef : Obj := [(keyId, JsVal.vUndef)]
def defsC5 : List (String × FieldDef) := [(kR, FieldDef.ref target0), (kS, FieldDef.scalar ScalarKind.text)]
def srcC5 : Obj := [(kR, JsVal.vObj [(keyId, JsVal.vStr idA)]), (kS, JsVal.vNum 5)]
def srcC5m : Obj := [(kR, JsVal.vStr idA), (kS, JsVal.vNum 5)]
def defsIdFree : List (String × FieldDef) := [(keyId, FieldDef.freeform)]
def srcIdUndef : Obj := [(keyId, JsVal.vUndef)]
def vdEx : VirtualDescr := { ref := missing0, localField := kL, foreignField := kF }
def virtEx : VirtualEntry := { fieldName := kV, virtualDef := vdEx }
def popMissing : PopulateDef := { path := kR, model := missing0 }
def popTgt : PopulateDef := { path := kR, model := target0 }
def fetchStub : JsVal → Bool → JsVal := fun r _ => JsVal.vObj [(keyId, r)]
def findStub : String → String → JsVal → Bool → JsVal := fun _ _ _ _ => JsVal.vArr []
def defsArrRef : List (String × FieldDef) := [(kR, FieldDef.arrayOf (FieldDef.ref target0))]
def srcIds : Obj := [(kR, JsVal.vArr [JsVal.vStr idA, JsVal.vUndef, JsVal.vStr idB, JsVal.vStr idC])]
def defsSText : List (String × FieldDef) := [(kS, FieldDef.scalar ScalarKind.text)]
def srcS7 : Obj := [(kS, JsVal.vNum 7)]
def srcRNull : Obj := [(kR, JsVal.vNull)]
def defsArrRefA : List (String × FieldDef) := [(kA, FieldDef.arrayOf (FieldDef.ref target0))]
def srcANullArr : Obj := [(kA, JsVal.vArr [JsVal.vNull])]
def pd1 : PopulateDef := { path := kA, model := mName0 }
def pd2 : PopulateDef := { path := kA, model := target0 }
def vd1 : VirtualDescr := { ref := target0, localField := kL, foreignField := kF }
def vd2 : VirtualDescr := { ref := missing0, localField := kF, foreignField := kL }
def srcOneId : Obj := [(kR, JsVal.vArr [JsVal.vStr idA])]
def srcEmptyArr : Obj := [(kR, JsVal.vArr [])]

/-- The source object carried by a buildFields outcome (the mutated
source at the point of failure, or after the loop). -/
def exSrc : Except (String × Obj) (Obj × Obj) → Obj
  | Except.error (_, s) => s
  | Except.ok (s, _) => s

theorem getOwn_setKey_self (o : Obj) (k : String) (v : JsVal) :
    getOwn (setKey o k v) k = some v := by
  induction o with
  | nil => simp [setKey, getOwn]
  | cons h t ih =>
    obtain ⟨k0, v0⟩ := h
    by_cases hk : k0 = k
    · simp [setKey, getOwn, hk]
    · simp [setKey, getOwn, hk, ih]

theorem getOwn_setKey_ne (o : Obj) (k k2 : String) (v : JsVal) (h : k2 ≠ k) :
    getOwn (setKey o k v) k2 = getOwn o k2 := by
  induction o with
  | nil => simp [setKey, getOwn, Ne.symm h]
  | cons hd t ih =>
    obtain ⟨k0, v0⟩ := hd
    by_cases hk : k0 = k
    · subst hk
      simp [setKey, getOwn, Ne.symm h]
    · simp [setKey, getOwn, hk, ih]

theorem hasOwn_setKey (o : Obj) (k k2 : String) (v : JsVal) :
    hasOwn (setKey o k v) k2 = (decide (k2 = k) || hasOwn o k2) := by
  by_cases h : k2 = k
  · subst h; simp [hasOwn, getOwn_setKey_self]
  · simp [hasOwn, getOwn_setKey_ne o k k2 v h, h]

theorem getOwn_delKey_self (o : Obj) (k : String) :
    getOwn (delKey o k) k = none := by
  induction o with
  | nil => simp [delKey, getOwn]
  | cons hd t ih =>
    obtain ⟨k0, v0⟩ := hd
    by_cases hk : k0 = k
    · simp [delKey, hk, ih]
    · simp [delKey, getOwn, hk, ih]

theorem getOwn_delKey_ne (o : Obj) (k k2 : String) (h : k2 ≠ k) :
    getOwn (delKey o k) k2 = getOwn o k2 := by
  induction o with
  | nil => simp [delKey]
  | cons hd t ih =>
    obtain ⟨k0, v0⟩ := hd
    by_cases hk : k0 = k
    · subst hk
      simp [delKey, getOwn, Ne.symm h, ih]
    · simp [delKey, getOwn, hk, ih]

theorem lookupFd_eq_none (defs : List (String × FieldDef)) (k : String)
    (h : k ∉ defs.map Prod.fst) : lookupFd defs k = none := by
  induction defs with
  | nil => simp [lookupFd]
  | cons hd t ih =>
    obtain ⟨k0, fd0⟩ := hd
    simp only [List.map_cons, List.mem_cons] at h
    push_neg at h
    simp [lookupFd, Ne.symm h.1, ih h.2]

theorem strAssoc (a b c : String) : a ++ b ++ c = a ++ (b ++ c) := by
  obtain ⟨la⟩ := a
  obtain ⟨lb⟩ := b
  obtain ⟨lc⟩ := c
  show String.mk (la ++ lb ++ lc) = String.mk (la ++ (lb ++ lc))
  exact congrArg String.mk (List.append_assoc la lb lc)

theorem depopulate_ok_ne (fd : FieldDef) (src : Obj) (key : String) (src1 : Obj)
    (h : depopulate fd src key = Except.ok src1) (k2 : String) (hne : k2 ≠ key) :
    getOwn src1 k2 = getOwn src k2 := by
  cases hra : (elem0 fd).any isRefDef with
  | true =>
    cases h1 : iterateVals (getProp src key) with
    | error e => simp [depopulate, hra, h1] at h
    | ok vs =>
      cases h2 : depopElems vs with
      | error e => simp [depopulate, hra, h1, h2] at h
      | ok dep =>
        simp only [depopulate, hra, h1, h2, if_true, Except.ok.injEq] at h
        rw [← h]
        exact getOwn_setKey_ne src key k2 _ hne
  | false =>
    cases hr : isRefDef fd with
    | true =>
      cases ht : typeofObject (getProp src key) with
      | true =>
        cases h3 : idOf (getProp src key) with
        | error e => simp [depopulate, hra, hr, ht, h3] at h
        | ok i =>
          simp only [depopulate, hra, hr, ht, h3, Bool.false_eq_true, if_false, if_true, Except.ok.injEq] at h
          rw [← h]
          exact getOwn_setKey_ne src key k2 _ hne
      | false =>
        simp only [depopulate, hra, hr, ht, Bool.false_eq_true, if_false, if_true, Except.ok.injEq] at h
        rw [← h]
        exact getOwn_setKey_ne src key k2 _ hne
    | false =>
      simp only [depopulate, hra, hr, Bool.false_eq_true, if_false, Except.ok.injEq] at h
      rw [← h]

theorem buildStep_ok_src_ne (tm : TypeModules) (mn : String) (iD cR : Bool)
    (key : String) (fd : FieldDef) (src ret src1 ret1 : Obj)
    (h : buildStep tm mn iD cR key fd src ret = Except.ok (src1, ret1))
    (k2 : String) (hne : k2 ≠ key) : getOwn src1 k2 = getOwn src k2 := by
  cases ho : hasOwn src key with
  | false =>
    simp [buildStep, ho] at h
    obtain ⟨hs, hr⟩ := h
    subst hs
    rfl
  | true =>
    cases hu2 : isUndef (getProp src key) with
    | true =>
      cases iD with
      | true =>
        simp [buildStep, ho, hu2] at h
        obtain ⟨hs, hr⟩ := h
        subst hs
        rfl
      | false =>
        simp [buildStep, ho, hu2] at h
        obtain ⟨hs, hr⟩ := h
        subst hs
        rfl
    | false =>
      cases cR with
      | false =>
        cases hv : validateField tm mn key fd (getProp src key) with
        | error e => simp [buildStep, ho, hu2, hv] at h
        | ok b =>
          simp [buildStep, ho, hu2, hv] at h
          obtain ⟨hs, hr⟩ := h
          subst hs
          rfl
      | true =>
        cases hd : depopulate fd src key with
        | error e => simp [buildStep, ho, hu2, hd] at h
        | ok srcA =>
          cases hv : validateField tm mn key fd (getProp srcA key) with
          | error e => simp [buildStep, ho, hu2, hd, hv] at h
          | ok b =>
            simp [buildStep, ho, hu2, hd, hv] at h
            obtain ⟨hs, hr⟩ := h
            subst hs
            exact depopulate_ok_ne fd src key srcA hd k2 hne

theorem buildStep_ok_ret_ne (tm : TypeModules) (mn : String) (iD cR : Bool)
    (key : String) (fd : FieldDef) (src ret src1 ret1 : Obj)
    (h : buildStep tm mn iD cR key fd src ret = Except.ok (src1, ret1))
    (k2 : String) (hne : k2 ≠ key) : getOwn ret1 k2 = getOwn ret k2 := by
  cases ho : hasOwn src key with
  | false =>
    simp [buildStep, ho] at h
    obtain ⟨hs, hr⟩ := h
    subst hr
    rfl
  | true =>
    cases hu2 : isUndef (getProp src key) with
    | true =>
      cases iD with
      | true =>
        simp [buildStep, ho, hu2] at h
        obtain ⟨hs, hr⟩ := h
        subst hr
        exact getOwn_setKey_ne ret key k2 _ hne
      | false =>
        simp [buildStep, ho, hu2] at h
        obtain ⟨hs, hr⟩ := h
        subst hr
        rfl
    | false =>
      cases cR with
      | false =>
        cases hv : validateField tm mn key fd (getProp src key) with
        | error e => simp [buildStep, ho, hu2, hv] at h
        | ok b =>
          simp [buildStep, ho, hu2, hv] at h
          obtain ⟨hs, hr⟩ := h
          subst hr
          exact getOwn_setKey_ne ret key k2 _ hne
      | true =>
        cases hd : depopulate fd src key with
        | error e => simp [buildStep, ho, hu2, hd] at h
        | ok srcA =>
          cases hv : validateField tm mn key fd (getProp srcA key) with
          | error e => simp [buildStep, ho, hu2, hd, hv] at h
          | ok b =>
            simp [buildStep, ho, hu2, hd, hv] at h
            obtain ⟨hs, hr⟩ := h
            subst hr
            exact getOwn_setKey_ne ret key k2 _ hne

theorem buildStep_ok_inactive_src (tm : TypeModules) (mn : String) (iD cR : Bool)
    (key : String) (fd : FieldDef) (src ret src1 ret1 : Obj)
    (hu : hasOwn src key = false ∨ isUndef (getProp src key) = true)
    (h : buildStep tm mn iD cR key fd src ret = Except.ok (src1, ret1)) : src1 = src := by
  cases ho : hasOwn src key with
  | false =>
    simp [buildStep, ho] at h
    exact h.1.symm
  | true =>
    have hu2 : isUndef (getProp src key) = true := by
      rcases hu with hu | hu
      · rw [ho] at hu; cases hu
      · exact hu
    cases iD with
    | true =>
      simp [buildStep, ho, hu2] at h
      exact h.1.symm
    | false =>
      simp [buildStep, ho, hu2] at h
      exact h.1.symm

theorem buildStep_ok_ret_hasOwn (tm : TypeModules) (mn : String) (iD cR : Bool)
    (key : String) (fd : FieldDef) (src ret src1 ret1 : Obj)
    (h : buildStep tm mn iD cR key fd src ret = Except.ok (src1, ret1)) (k2 : String) :
    hasOwn ret1 k2 = (hasOwn ret k2 || (decide (k2 = key) && hasOwn src k2 && (!(isUndef (getProp src k2)) || iD))) := by
  by_cases hk : k2 = key
  case neg =>
    have hr := buildStep_ok_ret_ne tm mn iD cR key fd src ret src1 ret1 h k2 hk
    simp [hasOwn, hr, hk]
  case pos =>
    subst hk
    cases ho : hasOwn src k2 with
    | false =>
      simp [buildStep, ho] at h
      obtain ⟨hs, hr⟩ := h
      subst hr
      simp [ho]
    | true =>
      cases hu2 : isUndef (getProp src k2) with
      | true =>
        cases iD with
        | true =>
          simp [buildStep, ho, hu2] at h
          obtain ⟨hs, hr⟩ := h
          subst hr
          rw [hasOwn_setKey]
          simp [ho, hu2]
        | false =>
          simp [buildStep, ho, hu2] at h
          obtain ⟨hs, hr⟩ := h
          subst hr
          simp [ho, hu2]
      | false =>
        cases cR with
        | false =>
          cases hv : validateField tm mn k2 fd (getProp src k2) with
          | error e => simp [buildStep, ho, hu2, hv] at h
          | ok b =>
            simp [buildStep, ho, hu2, hv] at h
            obtain ⟨hs, hr⟩ := h
            subst hr
            rw [hasOwn_setKey]
            simp [ho, hu2]
        | true =>
          cases hd : depopulate fd src k2 with
          | error e => simp [buildStep, ho, hu2, hd] at h
          | ok srcA =>
            cases hv : validateField tm mn k2 fd (getProp srcA k2) with
            | error e => simp [buildStep, ho, hu2, hd, hv] at h
            | ok b =>
              simp [buildStep, ho, hu2, hd, hv] at h
              obtain ⟨hs, hr⟩ := h
              subst hr
              rw [hasOwn_setKey]
              simp [ho, hu2]

theorem buildFields_append (tm : TypeModules) (mn : String) (iD cR : Bool) :
    ∀ (l1 l2 : List (String × FieldDef)) (src ret : Obj),
    buildFields tm mn iD cR (l1 ++ l2) src ret =
      (match buildFields tm mn iD cR l1 src ret with
       | Except.error e => Except.error e
       | Except.ok (s, r) => buildFields tm mn iD cR l2 s r) := by
  intro l1
  induction l1 with
  | nil => intro l2 src ret; simp [buildFields]
  | cons hd rest ih =>
    obtain ⟨key, fd⟩ := hd
    intro l2 src ret
    cases hstep : buildStep tm mn iD cR key fd src ret with
    | error e => simp [buildFields, hstep]
    | ok p =>
      obtain ⟨srcA, retA⟩ := p
      simp [buildFields, hstep, ih]

theorem buildStep_false_src (tm : TypeModules) (mn : String) (iD : Bool)
    (key : String) (fd : FieldDef) (src ret : Obj) :
    exSrc (buildStep tm mn iD false key fd src ret) = src := by
  cases ho : hasOwn src key with
  | false => simp [buildStep, ho, exSrc]
  | true =>
    cases hu2 : isUndef (getProp src key) with
    | true =>
      cases iD with
      | true => simp [buildStep, ho, hu2, exSrc]
      | false => simp [buildStep, ho, hu2, exSrc]
    | false =>
      cases hv : validateField tm mn key fd (getProp src key) with
      | error e => simp [buildStep, ho, hu2, hv, exSrc]
      | ok b => simp [buildStep, ho, hu2, hv, exSrc]

theorem buildFields_false_src (tm : TypeModules) (mn : String) (iD : Bool) :
    ∀ (defs : List (String × FieldDef)) (src ret : Obj),
    exSrc (buildFields tm mn iD false defs src ret) = src := by
  intro defs
  induction defs with
  | nil => intro src ret; simp [buildFields, exSrc]
  | cons hd rest ih =>
    obtain ⟨key, fd⟩ := hd
    intro src ret
    have hs := buildStep_false_src tm mn iD key fd src ret
    cases hstep : buildStep tm mn iD false key fd src ret with
    | error e =>
      rw [hstep] at hs
      obtain ⟨e1, s1⟩ := e
      simp [buildFields, hstep, exSrc]
      simpa [exSrc] using hs
    | ok p =>
      obtain ⟨srcA, retA⟩ := p
      rw [hstep] at hs
      simp only [exSrc] at hs
      subst hs
      simp [buildFields, hstep, ih]

theorem buildFields_hasOwn (tm : TypeModules) (mn : String) (iD cR : Bool) :
    ∀ (defs : List (String × FieldDef)) (src ret src1 ret1 : Obj),
    (defs.map Prod.fst).Nodup →
    buildFields tm mn iD cR defs src ret = Except.ok (src1, ret1) →
    ∀ k, hasOwn ret1 k = (hasOwn ret k || ((lookupFd defs k).isSome && hasOwn src k && (!(isUndef (getProp src k)) || iD))) := by
  intro defs
  induction defs with
  | nil =>
    intro src ret src1 ret1 hnd h k
    simp [buildFields] at h
    obtain ⟨hs, hr⟩ := h
    subst hr
    simp [lookupFd]
  | cons hd rest ih =>
    obtain ⟨key, fd⟩ := hd
    intro src ret src1 ret1 hnd h k
    cases hstep : buildStep tm mn iD cR key fd src ret with
    | error e => simp [buildFields, hstep] at h
    | ok p =>
      obtain ⟨srcA, retA⟩ := p
      simp only [buildFields, hstep] at h
      have hnd2 : (rest.map Prod.fst).Nodup := (List.nodup_cons.mp (by simpa using hnd)).2
      have hknotin : key ∉ rest.map Prod.fst := (List.nodup_cons.mp (by simpa using hnd)).1
      have IH := ih srcA retA src1 ret1 hnd2 h k
      by_cases hk : k = key
      · subst hk
        have hlk : lookupFd rest k = none := lookupFd_eq_none rest k hknotin
        have hretA := buildStep_ok_ret_hasOwn tm mn iD cR k fd src ret srcA retA hstep k
        rw [IH, hlk, hretA]
        simp [lookupFd, Bool.or_assoc]
      · have hsrcA := buildStep_ok_src_ne tm mn iD cR key fd src ret srcA retA hstep k hk
        have hretA := buildStep_ok_ret_ne tm mn iD cR key fd src ret srcA retA hstep k hk
        rw [IH]
        simp [hasOwn, getProp, hsrcA, hretA, lookupFd, Ne.symm hk]

theorem buildFields_src_pres (tm : TypeModules) (mn : String) (iD cR : Bool) :
    ∀ (defs : List (String × FieldDef)) (src ret src1 ret1 : Obj),
    (defs.map Prod.fst).Nodup →
    buildFields tm mn iD cR defs src ret = Except.ok (src1, ret1) →
    ∀ k, (lookupFd defs k = none ∨ hasOwn src k = false ∨ isUndef (getProp src k) = true) →
    getOwn src1 k = getOwn src k := by
  intro defs
  induction defs with
  | nil =>
    intro src ret src1 ret1 hnd h k hcond
    simp [buildFields] at h
    obtain ⟨hs, hr⟩ := h
    subst hs
    rfl
  | cons hd rest ih =>
    obtain ⟨key, fd⟩ := hd
    intro src ret src1 ret1 hnd h k hcond
    cases hstep : buildStep tm mn iD cR key fd src ret with
    | error e => simp [buildFields, hstep] at h
    | ok p =>
      obtain ⟨srcA, retA⟩ := p
      simp only [buildFields, hstep] at h
      have hnd2 : (rest.map Prod.fst).Nodup := (List.nodup_cons.mp (by simpa using hnd)).2
      have hknotin : key ∉ rest.map Prod.fst := (List.nodup_cons.mp (by simpa using hnd)).1
      by_cases hk : k = key
      · subst hk
        have hin : hasOwn src k = false ∨ isUndef (getProp src k) = true := by
          rcases hcond with hc | hc
          · simp [lookupFd] at hc
          · exact hc
        have hsA : srcA = src := buildStep_ok_inactive_src tm mn iD cR k fd src ret srcA retA hin hstep
        subst hsA
        exact ih srcA retA src1 ret1 hnd2 h k (Or.inl (lookupFd_eq_none rest k hknotin))
      · have hsrcA := buildStep_ok_src_ne tm mn iD cR key fd src ret srcA retA hstep k hk
        have hcond2 : lookupFd rest k = none ∨ hasOwn srcA k = false ∨ isUndef (getProp srcA k) = true := by
          rcases hcond with hc | hc
          · left
            simp only [lookupFd, Ne.symm hk, if_false] at hc
            exact hc
          · right
            simpa [hasOwn, getProp, hsrcA] using hc
        have := ih srcA retA src1 ret1 hnd2 h k hcond2
        rw [this, hsrcA]

theorem bf_undef_sentinel (tm : TypeModules) (mn : String) (cR : Bool) (k : String) :
    ∀ (defs : List (String × FieldDef)) (src ret src1 ret1 : Obj),
    getOwn src k = some JsVal.vUndef →
    buildFields tm mn true cR defs src ret = Except.ok (src1, ret1) →
    getOwn src1 k = some JsVal.vUndef ∧
    getOwn ret1 k = (if (lookupFd defs k).isSome then some JsVal.vSentinel else getOwn ret k) := by
  intro defs
  induction defs with
  | nil =>
    intro src ret src1 ret1 hsrc h
    simp [buildFields] at h
    obtain ⟨hs, hr⟩ := h
    subst hs
    subst hr
    simp [lookupFd, hsrc]
  | cons hd rest ih =>
    obtain ⟨key, fd⟩ := hd
    intro src ret src1 ret1 hsrc h
    by_cases hk : k = key
    · subst hk
      have hstep : buildStep tm mn true cR k fd src ret = Except.ok (src, setKey ret k JsVal.vSentinel) := by
        simp [buildStep, hasOwn, getProp, hsrc, isUndef]
      simp only [buildFields, hstep] at h
      have IH := ih src (setKey ret k JsVal.vSentinel) src1 ret1 hsrc h
      refine ⟨IH.1, ?_⟩
      rw [IH.2]
      simp only [lookupFd, if_pos rfl, Option.isSome_some, if_true]
      cases hl : (lookupFd rest k).isSome with
      | true => simp
      | false => simp [getOwn_setKey_self]
    · cases hstep : buildStep tm mn true cR key fd src ret with
      | error e => simp [buildFields, hstep] at h
      | ok p =>
        obtain ⟨srcA, retA⟩ := p
        simp only [buildFields, hstep] at h
        have hsrcA := buildStep_ok_src_ne tm mn true cR key fd src ret srcA retA hstep k hk
        have hretA := buildStep_ok_ret_ne tm mn true cR key fd src ret srcA retA hstep k hk
        have IH := ih srcA retA src1 ret1 (by rw [hsrcA]; exact hsrc) h
        refine ⟨IH.1, ?_⟩
        rw [IH.2, hretA]
        simp [lookupFd, Ne.symm hk]

theorem bf_undef_skip (tm : TypeModules) (mn : String) (cR : Bool) (k : String) :
    ∀ (defs : List (String × FieldDef)) (src ret src1 ret1 : Obj),
    getOwn src k = some JsVal.vUndef →
    buildFields tm mn false cR defs src ret = Except.ok (src1, ret1) →
    getOwn src1 k = some JsVal.vUndef ∧ getOwn ret1 k = getOwn ret k := by
  intro defs
  induction defs with
  | nil =>
    intro src ret src1 ret1 hsrc h
    simp [buildFields] at h
    obtain ⟨hs, hr⟩ := h
    subst hs
    subst hr
    exact ⟨hsrc, rfl⟩
  | cons hd rest ih =>
    obtain ⟨key, fd⟩ := hd
    intro src ret src1 ret1 hsrc h
    by_cases hk : k = key
    · subst hk
      have hstep : buildStep tm mn false cR k fd src ret = Except.ok (src, ret) := by
        simp [buildStep, hasOwn, getProp, hsrc, isUndef]
      simp only [buildFields, hstep] at h
      exact ih src ret src1 ret1 hsrc h
    · cases hstep : buildStep tm mn false cR key fd src ret with
      | error e => simp [buildFields, hstep] at h
      | ok p =>
        obtain ⟨srcA, retA⟩ := p
        simp only [buildFields, hstep] at h
        have hsrcA := buildStep_ok_src_ne tm mn false cR key fd src ret srcA retA hstep k hk
        have hretA := buildStep_ok_ret_ne tm mn false cR key fd src ret srcA retA hstep k hk
        have IH := ih srcA retA src1 ret1 (by rw [hsrcA]; exact hsrc) h
        exact ⟨IH.1, by rw [IH.2, hretA]⟩

theorem depopElems_null : ∀ (vs : List JsVal), JsVal.vNull ∈ vs →
    ∃ e, depopElems vs = Except.error e := by
  intro vs
  induction vs with
  | nil => intro hmem; cases hmem
  | cons v rest ih =>
    intro hmem
    rcases List.mem_cons.mp hmem with hv | hv
    · rw [← hv]
      exact ⟨typeErrNullId, rfl⟩
    · obtain ⟨e, he⟩ := ih hv
      cases ht : typeofObject v with
      | false => exact ⟨e, by simp [depopElems, ht, he, Except.map]⟩
      | true =>
        cases hi : idOf v with
        | error e2 => exact ⟨e2, by simp [depopElems, ht, hi]⟩
        | ok i => exact ⟨e, by simp [depopElems, ht, hi, he, Except.map]⟩

theorem bf_null_refField (tm : TypeModules) (mn : String) (iD : Bool) (k t : String) :
    ∀ (defs : List (String × FieldDef)) (src ret : Obj),
    (defs.map Prod.fst).Nodup →
    (k, FieldDef.ref t) ∈ defs →
    getOwn src k = some JsVal.vNull →
    ∃ e s, buildFields tm mn iD true defs src ret = Except.error (e, s) := by
  intro defs
  induction defs with
  | nil => intro src ret hnd hmem hsrc; cases hmem
  | cons hd rest ih =>
    obtain ⟨key, fd⟩ := hd
    intro src ret hnd hmem hsrc
    rcases List.mem_cons.mp hmem with heq | hmem2
    · cases heq
      have hstep : buildStep tm mn iD true k (FieldDef.ref t) src ret =
          Except.error (buildErr mn typeErrNullId, src) := by
        simp [buildStep, hasOwn, getProp, hsrc, isUndef, depopulate, elem0, isRefDef, typeofObject, idOf, Option.any]
      exact ⟨buildErr mn typeErrNullId, src, by simp [buildFields, hstep]⟩
    · have hkmem : k ∈ rest.map Prod.fst := List.mem_map.mpr ⟨(k, FieldDef.ref t), hmem2, rfl⟩
      have hknotin : key ∉ rest.map Prod.fst := (List.nodup_cons.mp (by simpa using hnd)).1
      have hkey : k ≠ key := fun hh => hknotin (hh ▸ hkmem)
      cases hstep : buildStep tm mn iD true key fd src ret with
      | error e =>
        obtain ⟨e1, s1⟩ := e
        exact ⟨e1, s1, by simp [buildFields, hstep]⟩
      | ok p =>
        obtain ⟨srcA, retA⟩ := p
        have hsrcA := buildStep_ok_src_ne tm mn iD true key fd src ret srcA retA hstep k hkey
        have hnd2 : (rest.map Prod.fst).Nodup := (List.nodup_cons.mp (by simpa using hnd)).2
        obtain ⟨e, sE, hE⟩ := ih srcA retA hnd2 hmem2 (by rw [hsrcA]; exact hsrc)
        exact ⟨e, sE, by simp [buildFields, hstep, hE]⟩

theorem bf_null_refArray (tm : TypeModules) (mn : String) (iD : Bool) (k t : String) :
    ∀ (defs : List (String × FieldDef)) (src ret : Obj) (vs : List JsVal),
    (defs.map Prod.fst).Nodup →
    (k, FieldDef.arrayOf (FieldDef.ref t)) ∈ defs →
    getOwn src k = some (JsVal.vArr vs) →
    JsVal.vNull ∈ vs →
    ∃ e s, buildFields tm mn iD true defs src ret = Except.error (e, s) := by
  intro defs
  induction defs with
  | nil => intro src ret vs hnd hmem hsrc hnull; cases hmem
  | cons hd rest ih =>
    obtain ⟨key, fd⟩ := hd
    intro src ret vs hnd hmem hsrc hnull
    rcases List.mem_cons.mp hmem with heq | hmem2
    · cases heq
      obtain ⟨e, he⟩ := depopElems_null vs hnull
      have hstep : buildStep tm mn iD true k (FieldDef.arrayOf (FieldDef.ref t)) src ret =
          Except.error (buildErr mn e, src) := by
        simp [buildStep, hasOwn, getProp, hsrc, isUndef, depopulate, elem0, isRefDef, iterateVals, he, Option.any]
      exact ⟨buildErr mn e, src, by simp [buildFields, hstep]⟩
    · have hkmem : k ∈ rest.map Prod.fst := List.mem_map.mpr ⟨(k, FieldDef.arrayOf (FieldDef.ref t)), hmem2, rfl⟩
      have hknotin : key ∉ rest.map Prod.fst := (List.nodup_cons.mp (by simpa using hnd)).1
      have hkey : k ≠ key := fun hh => hknotin (hh ▸ hkmem)
      cases hstep : buildStep tm mn iD true key fd src ret with
      | error e =>
        obtain ⟨e1, s1⟩ := e
        exact ⟨e1, s1, by simp [buildFields, hstep]⟩
      | ok p =>
        obtain ⟨srcA, retA⟩ := p
        have hsrcA := buildStep_ok_src_ne tm mn iD true key fd src ret srcA retA hstep k hkey
        have hnd2 : (rest.map Prod.fst).Nodup := (List.nodup_cons.mp (by simpa using hnd)).2
        obtain ⟨e, sE, hE⟩ := ih srcA retA vs hnd2 hmem2 (by rw [hsrcA]; exact hsrc) hnull
        exact ⟨e, sE, by simp [buildFields, hstep, hE]⟩

theorem popFetch_some (m : ModelStub) (n : String) : ∀ (vs : List JsVal),
    popFetch (some m) n vs =
      Except.ok ((vs.filter (fun r => !(isUndef r))).map (fun r => m.findById r true),
                 (vs.filter (fun r => !(isUndef r))).map (fun r => (n, r))) := by
  intro vs
  induction vs with
  | nil => rfl
  | cons v rest ih =>
    cases hu : isUndef v with
    | true => simp [popFetch, hu, ih, List.filter_cons]
    | false => simp [popFetch, hu, ih, List.filter_cons]

theorem popFetch_none (n : String) : ∀ (vs : List JsVal),
    (∃ r ∈ vs, isUndef r = false) →
    popFetch (none : Option ModelStub) n vs = Except.error typeErrFindById := by
  intro vs
  induction vs with
  | nil => intro ⟨r, hr, _⟩; cases hr
  | cons v rest ih =>
    intro ⟨r, hr, hru⟩
    cases hu : isUndef v with
    | false => simp [popFetch, hu]
    | true =>
      have hr2 : r ∈ rest := by
        rcases List.mem_cons.mp hr with hh | hh
        · rw [hh] at hru; rw [hru] at hu; cases hu
        · exact hh
      simp [popFetch, hu, ih ⟨r, hr2, hru⟩]

theorem validateField_error_shape (tm : TypeModules) (mn key : String)
    (fd : FieldDef) (v : JsVal) (e : String)
    (h : validateField tm mn key fd v = Except.error e) :
    ∃ lbl, e = vmsg mn key lbl v := by
  unfold validateField at h
  split at h
  · exact ⟨lblString, (Except.error.inj h).symm⟩
  split at h
  · exact ⟨lblBoolean, (Except.error.inj h).symm⟩
  split at h
  · exact ⟨lblDate, (Except.error.inj h).symm⟩
  split at h
  · exact ⟨lblNumber, (Except.error.inj h).symm⟩
  split at h
  · exact ⟨lblDocId, (Except.error.inj h).symm⟩
  split at h
  · exact ⟨lblArrString, (Except.error.inj h).symm⟩
  split at h
  · exact ⟨lblArrDocId, (Except.error.inj h).symm⟩
  · cases h

/-- Claim C1 counterexample: with a reference coercion that is not the
identity, build stores the raw source value for a Reference-declared
field, not the result of the reference coercion — the trailing
typeof-object branch of _getValue overwrites the computed coercion. -/
theorem c1_coercion_refuted :
    build tmRefCoerce mName0 defsRefOnly srcRefStr false false false = Except.ok retRefStr ∧
    tmRefCoerce.refGetValue (JsVal.vStr idA) = JsVal.vStr sCoerced ∧
    getOwn retRefStr kR = some (JsVal.vStr idA) ∧
    JsVal.vStr idA ≠ JsVal.vStr sCoerced := by
  refine ⟨rfl, rfl, rfl, ?_⟩
  intro h
  exact absurd (JsVal.vStr.inj h) (by decide)

/-- Claim C1 amended: only the four scalar kinds are stored through
their declared coercion; Reference, array (of any element kind) and
free-form fields are all passed through uncoerced, because the final
typeof-object branch of _getValue (lines 116-118) overwrites the
reference and array coercion results with the raw value. -/
theorem c1_coercion_amended : ∀ (tm : TypeModules) (v : JsVal) (t : String) (e : FieldDef),
    getValue tm (FieldDef.scalar ScalarKind.text) v = tm.stringGetValue v ∧
    getValue tm (FieldDef.scalar ScalarKind.boolean) v = tm.booleanGetValue v ∧
    getValue tm (FieldDef.scalar ScalarKind.date) v = tm.dateGetValue v ∧
    getValue tm (FieldDef.scalar ScalarKind.number) v = tm.numberGetValue v ∧
    getValue tm (FieldDef.ref t) v = v ∧
    getValue tm (FieldDef.arrayOf e) v = v ∧
    getValue tm FieldDef.freeform v = v := by
  intro tm v t e
  exact ⟨rfl, rfl, rfl, rfl, rfl, rfl, rfl⟩

/-- Claim C3 counterexample: a field declared ArrayOf(Number) whose
value is rejected by the number uniform-array predicate is nonetheless
accepted by build and stored raw — _validateField only dispatches
Array<String> and Array<ref> among array shapes, and every other
object-shaped declaration falls into the always-valid branch. -/
theorem c3_scalar_array_refuted :
    build tmNoNumArr mName0 defsNumArr srcOops false false false = Except.ok retOops ∧
    tmNoNumArr.numberValidateArray (JsVal.vStr sOops) = false := ⟨rfl, rfl⟩

/-- Claim C3 amended: only ArrayOf(text) is validated with the text
kind uniform-array predicate (raising on failure); ArrayOf(boolean),
ArrayOf(date) and ArrayOf(number) fall through to the typeof-object
catch-all and are accepted without any validation; and no array field
stores its element-wise coercion — the raw value is passed through. -/
theorem c3_scalar_array_amended : ∀ (tm : TypeModules) (mn k : String) (v : JsVal),
    validateField tm mn k (FieldDef.arrayOf (FieldDef.scalar ScalarKind.text)) v =
      (if tm.stringValidateArray v = true then Except.ok true
       else Except.error (vmsg mn k lblArrString v)) ∧
    validateField tm mn k (FieldDef.arrayOf (FieldDef.scalar ScalarKind.boolean)) v = Except.ok true ∧
    validateField tm mn k (FieldDef.arrayOf (FieldDef.scalar ScalarKind.date)) v = Except.ok true ∧
    validateField tm mn k (FieldDef.arrayOf (FieldDef.scalar ScalarKind.number)) v = Except.ok true ∧
    (∀ sk : ScalarKind, getValue tm (FieldDef.arrayOf (FieldDef.scalar sk)) v = v) := by
  intro tm mn k v
  refine ⟨?_, rfl, rfl, rfl, fun sk => rfl⟩
  cases hs : tm.stringValidateArray v with
  | true => simp [validateField, hs, isRefDef, elem0, Option.any]
  | false => simp [validateField, hs, isRefDef, elem0, Option.any]

/-- Claim C5 counterexample: a failing build with cleanRefs set leaves
the source object mutated — the reference field was collapsed in place
before the text field failed validation, and the failed call returns
the mutated source, not the original. -/
theorem c5_no_mutation_refuted :
    (buildS tmStrict mName0 defsC5 srcC5 false false true).1 =
      Except.error (buildErr mName0 (vmsg mName0 kS lblString (JsVal.vNum 5))) ∧
    (buildS tmStrict mName0 defsC5 srcC5 false false true).2 = srcC5m ∧
    srcC5m ≠ srcC5 := by
  refine ⟨rfl, rfl, ?_⟩
  intro h
  injection h with h1 h2
  injection h1 with ha hb
  exact JsVal.noConfusion hb

/-- Claim C5 amended: a failed build returns no partial result (the
outcome carries only the thrown message), and the source object is
left unchanged whenever cleanRefs is false; with cleanRefs set,
reference collapsing may already have mutated the source in place
before the failure. -/
theorem c5_no_mutation_amended : ∀ (tm : TypeModules) (mn : String)
    (defs : List (String × FieldDef)) (src : Obj) (rI iD : Bool),
    (buildS tm mn defs src rI iD false).2 = src := by
  intro tm mn defs src rI iD
  have h := buildFields_false_src tm mn iD defs src []
  cases hbf : buildFields tm mn iD false defs src [] with
  | error e =>
    obtain ⟨e1, s1⟩ := e
    rw [hbf] at h
    simp only [exSrc] at h
    simp [buildS, hbf, h]
  | ok p =>
    obtain ⟨s1, r0⟩ := p
    rw [hbf] at h
    simp only [exSrc] at h
    simp [buildS, hbf, h]

/-- Claim C9: for each of the four registries — populates keyed by
path, hooks keyed by operation, virtuals keyed by field name, uploads
keyed by path — a second registration under an existing identity key
is silently dropped (the stored entry is the first), registration is
the only operation and only ever appends, and starting from a registry
without the key the two registrations leave exactly one entry, the
first. -/
theorem c9_registries :
    (∀ (r : List PopulateDef) (d1 d2 : PopulateDef), d2.path = d1.path →
        populateRegister (populateRegister r d1) d2 = populateRegister r d1) ∧
    (∀ (r : List PopulateDef) (d : PopulateDef), ∃ tl, populateRegister r d = r ++ tl) ∧
    (∀ (r : List PopulateDef) (d1 d2 : PopulateDef),
        r.any (fun p => p.path = d1.path) = false → d2.path = d1.path →
        (populateRegister (populateRegister r d1) d2).filter (fun p => p.path = d1.path) = [d1]) ∧
    (∀ (r : List PreOpEntry) (op : String) (c1 c2 : Nat),
        preRegister (preRegister r op c1) op c2 = preRegister r op c1) ∧
    (∀ (r : List PreOpEntry) (op : String) (c : Nat), ∃ tl, preRegister r op c = r ++ tl) ∧
    (∀ (r : List PreOpEntry) (op : String) (c1 c2 : Nat),
        r.any (fun p => p.operation = op) = false →
        (preRegister (preRegister r op c1) op c2).filter (fun p => p.operation = op) =
          [{ operation := op, cb := c1 }]) ∧
    (∀ (r : List VirtualEntry) (fn : String) (v1 v2 : VirtualDescr),
        virtualRegister (virtualRegister r fn v1) fn v2 = virtualRegister r fn v1) ∧
    (∀ (r : List VirtualEntry) (fn : String) (v : VirtualDescr), ∃ tl, virtualRegister r fn v = r ++ tl) ∧
    (∀ (r : List VirtualEntry) (fn : String) (v1 v2 : VirtualDescr),
        r.any (fun x => x.fieldName = fn) = false →
        (virtualRegister (virtualRegister r fn v1) fn v2).filter (fun x => x.fieldName = fn) =
          [{ fieldName := fn, virtualDef := v1 }]) ∧
    (∀ (r : List UploadEntry) (sp1 sp2 p : String),
        uploadRegister (uploadRegister r sp1 p) sp2 p = uploadRegister r sp1 p) ∧
    (∀ (r : List UploadEntry) (sp p : String), ∃ tl, uploadRegister r sp p = r ++ tl) ∧
    (∀ (r : List UploadEntry) (sp1 sp2 p : String),
        r.any (fun u => u.path = p) = false →
        (uploadRegister (uploadRegister r sp1 p) sp2 p).filter (fun u => u.path = p) =
          [{ storagePath := sp1, path := p }]) := by
  refine ⟨?_, ?_, ?_, ?_, ?_, ?_, ?_, ?_, ?_, ?_, ?_, ?_⟩
  · intro r d1 d2 hp
    cases ha : r.any (fun p => p.path = d1.path) with
    | true => simp [populateRegister, ha, hp]
    | false => simp [populateRegister, ha, hp]
  · intro r d
    cases ha : r.any (fun p => p.path = d.path) with
    | true => exact ⟨[], by simp [populateRegister, ha]⟩
    | false => exact ⟨[d], by simp [populateRegister, ha]⟩
  · intro r d1 d2 h0 hp
    have h1 : populateRegister r d1 = r ++ [d1] := by simp [populateRegister, h0]
    have h2 : populateRegister (r ++ [d1]) d2 = r ++ [d1] := by
      simp [populateRegister, hp, h0]
    rw [h1, h2, List.filter_append]
    have hfr : r.filter (fun p => decide (p.path = d1.path)) = [] := by
      rw [List.filter_eq_nil_iff]
      intro a ha2
      have := (List.any_eq_false).mp h0 a ha2
      simpa using this
    simp [hfr]
  · intro r op c1 c2
    cases ha : r.any (fun p => p.operation = op) with
    | true => simp [preRegister, ha]
    | false => simp [preRegister, ha]
  · intro r op c
    cases ha : r.any (fun p => p.operation = op) with
    | true => exact ⟨[], by simp [preRegister, ha]⟩
    | false => exact ⟨[{ operation := op, cb := c }], by simp [preRegister, ha]⟩
  · intro r op c1 c2 h0
    have h1 : preRegister r op c1 = r ++ [{ operation := op, cb := c1 }] := by
      simp [preRegister, h0]
    have h2 : preRegister (r ++ [{ operation := op, cb := c1 }]) op c2 =
        r ++ [{ operation := op, cb := c1 }] := by
      simp [preRegister, h0]
    rw [h1, h2, List.filter_append]
    have hfr : r.filter (fun p => decide (p.operation = op)) = [] := by
      rw [List.filter_eq_nil_iff]
      intro a ha2
      have := (List.any_eq_false).mp h0 a ha2
      simpa using this
    simp [hfr]
  · intro r fn v1 v2
    cases ha : r.any (fun x => x.fieldName = fn) with
    | true => simp [virtualRegister, ha]
    | false => simp [virtualRegister, ha]
  · intro r fn v
    cases ha : r.any (fun x => x.fieldName = fn) with
    | true => exact ⟨[], by simp [virtualRegister, ha]⟩
    | false => exact ⟨[{ fieldName := fn, virtualDef := v }], by simp [virtualRegister, ha]⟩
  · intro r fn v1 v2 h0
    have h1 : virtualRegister r fn v1 = r ++ [{ fieldName := fn, virtualDef := v1 }] := by
      simp [virtualRegister, h0]
    have h2 : virtualRegister (r ++ [{ fieldName := fn, virtualDef := v1 }]) fn v2 =
        r ++ [{ fieldName := fn, virtualDef := v1 }] := by
      simp [virtualRegister, h0]
    rw [h1, h2, List.filter_append]
    have hfr : r.filter (fun x => decide (x.fieldName = fn)) = [] := by
      rw [List.filter_eq_nil_iff]
      intro a ha2
      have := (List.any_eq_false).mp h0 a ha2
      simpa using this
    simp [hfr]
  · intro r sp1 sp2 p
    cases ha : r.any (fun u => u.path = p) with
    | true => simp [uploadRegister, ha]
    | false => simp [uploadRegister, ha]
  · intro r sp p
    cases ha : r.any (fun u => u.path = p) with
    | true => exact ⟨[], by simp [uploadRegister, ha]⟩
    | false => exact ⟨[{ storagePath := sp, path := p }], by simp [uploadRegister, ha]⟩
  · intro r sp1 sp2 p h0
    have h1 : uploadRegister r sp1 p = r ++ [{ storagePath := sp1, path := p }] := by
      simp [uploadRegister, h0]
    have h2 : uploadRegister (r ++ [{ storagePath := sp1, path := p }]) sp2 p =
        r ++ [{ storagePath := sp1, path := p }] := by
      simp [uploadRegister, h0]
    rw [h1, h2, List.filter_append]
    have hfr : r.filter (fun u => decide (u.path = p)) = [] := by
      rw [List.filter_eq_nil_iff]
      intro a ha2
      have := (List.any_eq_false).mp h0 a ha2
      simpa using this
    simp [hfr]

/-- Claim C9 witness: the registry facts applied at concrete inputs —
a duplicate populate path and a duplicate upload path are each dropped,
and a populate registration appends to the empty registry. -/
theorem c9_registries_witness :
    populateRegister (populateRegister [] pd1) pd2 = populateRegister [] pd1 ∧
    (preRegister (preRegister [] kA 0) kA 1).filter (fun p => p.operation = kA) =
      [{ operation := kA, cb := 0 }] ∧
    virtualRegister (virtualRegister [] kV vd1) kV vd2 = virtualRegister [] kV vd1 ∧
    uploadRegister (uploadRegister [] kA kR) kS kR = uploadRegister [] kA kR := by
  refine ⟨?_, ?_, ?_, ?_⟩
  · exact c9_registries.1 [] pd1 pd2 rfl
  · exact c9_registries.2.2.2.2.2.1 [] kA 0 1 rfl
  · exact c9_registries.2.2.2.2.2.2.1 [] kV vd1 vd2
  · exact c9_registries.2.2.2.2.2.2.2.2.2.1 [] kA kS kR

/-- Claim C4 counterexample: a declared key that is an own property of
the source but holds the explicit undefined value is omitted from the
result when includeDeletes is false, so the result key set is strictly
smaller than (definition keys ∩ source own keys) ∪ the id key. -/
theorem c4_keyset_refuted :
    build tmId mName0 defsFree srcAUndef false false false = Except.ok retIdUndef ∧
    hasOwn srcAUndef kA = true ∧
    (lookupFd defsFree kA).isSome = true ∧
    hasOwn retIdUndef kA = false := ⟨rfl, rfl, rfl, rfl⟩

/-- Claim C4 amended: for a field-definition map without duplicate keys,
the key set of a successful build result consists of the declared keys
that are own properties of the source and hold a defined value (or any
value when includeDeletes is set), together with the id key, and the
created and updated keys when truthy on the source; when removeId is
set, the id key is removed from the result even if it was declared. -/
theorem c4_keyset_amended : ∀ (tm : TypeModules) (mn : String)
    (defs : List (String × FieldDef)) (src : Obj) (rI iD cR : Bool) (ret : Obj),
    (defs.map Prod.fst).Nodup →
    build tm mn defs src rI iD cR = Except.ok ret →
    ∀ k, hasOwn ret k = true ↔
      ((((lookupFd defs k).isSome && hasOwn src k && (!(isUndef (getProp src k)) || iD)) = true
        ∨ k = keyId
        ∨ (k = keyC ∧ truthy (getProp src keyC) = true)
        ∨ (k = keyU ∧ truthy (getProp src keyU) = true))
       ∧ ¬(rI = true ∧ k = keyId)) := by
  intro tm mn defs src rI iD cR ret hnd hb k
  unfold build buildS at hb
  cases hbf : buildFields tm mn iD cR defs src [] with
  | error e =>
    obtain ⟨e1, s1⟩ := e
    rw [hbf] at hb
    simp at hb
  | ok p =>
    obtain ⟨src1, ret0⟩ := p
    rw [hbf] at hb
    dsimp only at hb
    injection hb with hb1
    have hloop : ∀ k2, hasOwn ret0 k2 =
        ((lookupFd defs k2).isSome && hasOwn src k2 && (!(isUndef (getProp src k2)) || iD)) := by
      intro k2
      have := buildFields_hasOwn tm mn iD cR defs src [] src1 ret0 hnd hbf k2
      simpa [hasOwn, getOwn] using this
    have hpres := buildFields_src_pres tm mn iD cR defs src [] src1 ret0 hnd hbf
    have htransC : (hasOwn ret0 keyC = true) ∨ getOwn src1 keyC = getOwn src keyC := by
      cases hlk : lookupFd defs keyC with
      | none => exact Or.inr (hpres keyC (Or.inl hlk))
      | some fdC =>
        cases hho : hasOwn src keyC with
        | false => exact Or.inr (hpres keyC (Or.inr (Or.inl hho)))
        | true =>
          cases hiu : isUndef (getProp src keyC) with
          | true => exact Or.inr (hpres keyC (Or.inr (Or.inr hiu)))
          | false =>
            left
            rw [hloop keyC, hlk, hho, hiu]
            rfl
    have htransU : (hasOwn ret0 keyU = true) ∨ getOwn src1 keyU = getOwn src keyU := by
      cases hlk : lookupFd defs keyU with
      | none => exact Or.inr (hpres keyU (Or.inl hlk))
      | some fdU =>
        cases hho : hasOwn src keyU with
        | false => exact Or.inr (hpres keyU (Or.inr (Or.inl hho)))
        | true =>
          cases hiu : isUndef (getProp src keyU) with
          | true => exact Or.inr (hpres keyU (Or.inr (Or.inr hiu)))
          | false =>
            left
            rw [hloop keyU, hlk, hho, hiu]
            rfl
    have hIdC : keyId ≠ keyC := by decide
    have hIdU : keyId ≠ keyU := by decide
    have hCU : keyC ≠ keyU := by decide
    -- the post-loop result, with ret named by hb1
    have hR1 : ∀ k2, hasOwn (setKey ret0 keyId (getProp src1 keyId)) k2 =
        (decide (k2 = keyId) || hasOwn ret0 k2) := fun k2 => hasOwn_setKey ret0 keyId k2 _
    rw [← hb1]
    by_cases hkId : k = keyId
    · subst hkId
      have h3 : hasOwn (if truthy (getProp src1 keyU) = true then
          setKey (if truthy (getProp src1 keyC) = true then
            setKey (setKey ret0 keyId (getProp src1 keyId)) keyC (getProp src1 keyC)
          else setKey ret0 keyId (getProp src1 keyId)) keyU (getProp src1 keyU)
        else (if truthy (getProp src1 keyC) = true then
            setKey (setKey ret0 keyId (getProp src1 keyId)) keyC (getProp src1 keyC)
          else setKey ret0 keyId (getProp src1 keyId))) keyId = true := by
        by_cases htC : truthy (getProp src1 keyC) = true <;>
          by_cases htU : truthy (getProp src1 keyU) = true <;>
            simp [htC, htU, hasOwn_setKey, hR1, hIdC, hIdU]
      cases rI with
      | true =>
        simp only [if_true]
        rw [hasOwn, getOwn_delKey_self]
        simp
      | false =>
        simp only [Bool.false_eq_true, if_false]
        rw [h3]
        simp
    · -- k is not the id key: delKey and the id copy do not affect it
      have hdel : ∀ (o : Obj), hasOwn (if rI = true then delKey o keyId else o) k = hasOwn o k := by
        intro o
        cases rI with
        | true => simp [hasOwn, getOwn_delKey_ne o keyId k hkId]
        | false => simp
      rw [hdel]
      by_cases hkC : k = keyC
      · subst hkC
        have hLHS : ∀ (b : Bool), hasOwn (if truthy (getProp src1 keyU) = true then
            setKey (if truthy (getProp src1 keyC) = true then
              setKey (setKey ret0 keyId (getProp src1 keyId)) keyC (getProp src1 keyC)
            else setKey ret0 keyId (getProp src1 keyId)) keyU (getProp src1 keyU)
          else (if truthy (getProp src1 keyC) = true then
              setKey (setKey ret0 keyId (getProp src1 keyId)) keyC (getProp src1 keyC)
            else setKey ret0 keyId (getProp src1 keyId))) keyC =
            (truthy (getProp src1 keyC) || hasOwn ret0 keyC) := by
          intro b
          by_cases htC : truthy (getProp src1 keyC) = true <;>
            by_cases htU : truthy (getProp src1 keyU) = true <;>
              simp [htC, htU, hasOwn_setKey, hCU, Ne.symm hIdC, Bool.eq_false_iff.mpr]
        rw [hLHS true]
        rcases htransC with hC | hC
        · rw [hC]
          simp only [Bool.or_true, true_iff]
          rw [hloop keyC] at hC
          exact ⟨Or.inl hC, fun hh => hkId hh.2⟩
        · have : truthy (getProp src1 keyC) = truthy (getProp src keyC) := by
            rw [getProp, getProp, hC]
          rw [this, hloop keyC]
          constructor
          · intro hh
            rcases Bool.or_eq_true_iff.mp hh with hh | hh
            · exact ⟨Or.inr (Or.inr (Or.inl ⟨rfl, hh⟩)), fun hh2 => hkId hh2.2⟩
            · exact ⟨Or.inl hh, fun hh2 => hkId hh2.2⟩
          · intro ⟨hh, _⟩
            rcases hh with hh | hh | hh | hh
            · simp [hh]
            · exact absurd hh hkId
            · simp [hh.2]
            · exact absurd hh.1 hCU
      · by_cases hkU : k = keyU
        · subst hkU
          have hLHS : hasOwn (if truthy (getProp src1 keyU) = true then
              setKey (if truthy (getProp src1 keyC) = true then
                setKey (setKey ret0 keyId (getProp src1 keyId)) keyC (getProp src1 keyC)
              else setKey ret0 keyId (getProp src1 keyId)) keyU (getProp src1 keyU)
            else (if truthy (getProp src1 keyC) = true then
                setKey (setKey ret0 keyId (getProp src1 keyId)) keyC (getProp src1 keyC)
              else setKey ret0 keyId (getProp src1 keyId))) keyU =
              (truthy (getProp src1 keyU) || hasOwn ret0 keyU) := by
            by_cases htC : truthy (getProp src1 keyC) = true <;>
              by_cases htU : truthy (getProp src1 keyU) = true <;>
                simp [htC, htU, hasOwn_setKey, Ne.symm hCU, Ne.symm hIdU]
          rw [hLHS]
          rcases htransU with hU | hU
          · rw [hU]
            simp only [Bool.or_true, true_iff]
            rw [hloop keyU] at hU
            exact ⟨Or.inl hU, fun hh => hkId hh.2⟩
          · have : truthy (getProp src1 keyU) = truthy (getProp src keyU) := by
              rw [getProp, getProp, hU]
            rw [this, hloop keyU]
            constructor
            · intro hh
              rcases Bool.or_eq_true_iff.mp hh with hh | hh
              · exact ⟨Or.inr (Or.inr (Or.inr ⟨rfl, hh⟩)), fun hh2 => hkId hh2.2⟩
              · exact ⟨Or.inl hh, fun hh2 => hkId hh2.2⟩
            · intro ⟨hh, _⟩
              rcases hh with hh | hh | hh | hh
              · simp [hh]
              · exact absurd hh hkId
              · exact absurd hh.1 hkC
              · simp [hh.2]
        · -- plain key
          have hLHS : hasOwn (if truthy (getProp src1 keyU) = true then
              setKey (if truthy (getProp src1 keyC) = true then
                setKey (setKey ret0 keyId (getProp src1 keyId)) keyC (getProp src1 keyC)
              else setKey ret0 keyId (getProp src1 keyId)) keyU (getProp src1 keyU)
            else (if truthy (getProp src1 keyC) = true then
                setKey (setKey ret0 keyId (getProp src1 keyId)) keyC (getProp src1 keyC)
              else setKey ret0 keyId (getProp src1 keyId))) k = hasOwn ret0 k := by
            by_cases htC : truthy (getProp src1 keyC) = true <;>
              by_cases htU : truthy (getProp src1 keyU) = true <;>
                simp [htC, htU, hasOwn_setKey, hkId, hkC, hkU]
          rw [hLHS, hloop k]
          constructor
          · intro hh
            exact ⟨Or.inl hh, fun hh2 => hkId hh2.2⟩
          · intro ⟨hh, _⟩
            rcases hh with hh | hh | hh | hh
            · exact hh
            · exact absurd hh hkId
            · exact absurd hh.1 hkC
            · exact absurd hh.1 hkU

/-- Claim C4 witness: the amended key-set law applied to a concrete
one-field build. -/
theorem c4_keyset_witness :
    (List.map Prod.fst defsSText).Nodup ∧
    build tmStrict mName0 defsSText [(kS, JsVal.vStr idA)] false false false =
      Except.ok [(kS, JsVal.vStr idA), (keyId, JsVal.vUndef)] ∧
    (hasOwn [(kS, JsVal.vStr idA), (keyId, JsVal.vUndef)] kS = true ↔
      ((((lookupFd defsSText kS).isSome && hasOwn [(kS, JsVal.vStr idA)] kS &&
          (!(isUndef (getProp [(kS, JsVal.vStr idA)] kS)) || false)) = true
        ∨ kS = keyId
        ∨ (kS = keyC ∧ truthy (getProp [(kS, JsVal.vStr idA)] keyC) = true)
        ∨ (kS = keyU ∧ truthy (getProp [(kS, JsVal.vStr idA)] keyU) = true))
       ∧ ¬(false = true ∧ kS = keyId))) := by
  refine ⟨by decide, rfl, ?_⟩
  exact c4_keyset_amended tmStrict mName0 defsSText [(kS, JsVal.vStr idA)] false false false
    [(kS, JsVal.vStr idA), (keyId, JsVal.vUndef)] (by decide) rfl kS

theorem lookupFd_isSome_of_mem (defs : List (String × FieldDef)) (k : String) (fd : FieldDef)
    (h : (k, fd) ∈ defs) : (lookupFd defs k).isSome = true := by
  induction defs with
  | nil => cases h
  | cons hd rest ih =>
    obtain ⟨k0, fd0⟩ := hd
    by_cases hk : k0 = k
    · simp [lookupFd, hk]
    · rcases List.mem_cons.mp h with heq | hmem
      · exact absurd (congrArg Prod.fst heq).symm hk
      · simp [lookupFd, hk, ih hmem]

/-- Claim C7 counterexample: when the id key itself is a declared field
explicitly set to undefined and includeDeletes is set, the loop writes
the delete marker but the unconditional id copy then overwrites it, so
the result holds undefined rather than the sentinel. -/
theorem c7_delete_marker_refuted :
    build tmId mName0 defsIdFree srcIdUndef false true false = Except.ok [(keyId, JsVal.vUndef)] ∧
    getOwn [(keyId, JsVal.vUndef)] keyId ≠ some JsVal.vSentinel := by
  refine ⟨rfl, ?_⟩
  intro h
  have h2 : some JsVal.vUndef = some JsVal.vSentinel := h
  exact JsVal.noConfusion (Option.some.inj h2)

/-- Claim C7 amended: for every declared field other than the id key
that is an own source property holding the explicit undefined value,
build with includeDeletes emits the delete-marker sentinel for that key
and without includeDeletes omits the key entirely; the id key is
exempt because the unconditional id copy overwrites its loop result. -/
theorem c7_delete_marker_amended : ∀ (tm : TypeModules) (mn : String)
    (defs : List (String × FieldDef)) (src : Obj) (rI cR : Bool) (k : String) (fd : FieldDef),
    (k, fd) ∈ defs → k ≠ keyId → getOwn src k = some JsVal.vUndef →
    (∀ ret, build tm mn defs src rI true cR = Except.ok ret → getOwn ret k = some JsVal.vSentinel) ∧
    (∀ ret, build tm mn defs src rI false cR = Except.ok ret → hasOwn ret k = false) := by
  intro tm mn defs src rI cR k fd hmem hkid hsrc
  have hlk : (lookupFd defs k).isSome = true := lookupFd_isSome_of_mem defs k fd hmem
  constructor
  · intro ret hb
    unfold build buildS at hb
    cases hbf : buildFields tm mn true cR defs src [] with
    | error e =>
      obtain ⟨e1, s1⟩ := e
      rw [hbf] at hb
      simp at hb
    | ok p =>
      obtain ⟨src1, ret0⟩ := p
      rw [hbf] at hb
      dsimp only at hb
      injection hb with hb1
      obtain ⟨hs1, hs2⟩ := bf_undef_sentinel tm mn cR k defs src [] src1 ret0 hsrc hbf
      rw [hlk] at hs2
      simp only [if_true] at hs2
      rw [← hb1]
      have hg1 : getOwn (setKey ret0 keyId (getProp src1 keyId)) k = some JsVal.vSentinel := by
        rw [getOwn_setKey_ne ret0 keyId k _ hkid, hs2]
      have hg2 : getOwn (if truthy (getProp src1 keyC) = true then
          setKey (setKey ret0 keyId (getProp src1 keyId)) keyC (getProp src1 keyC)
        else setKey ret0 keyId (getProp src1 keyId)) k = some JsVal.vSentinel := by
        by_cases hkc : k = keyC
        · subst hkc
          rw [getProp, hs1]
          simp only [Option.getD_some, truthy]
          exact hg1
        · by_cases htc : truthy (getProp src1 keyC) = true
          · rw [if_pos htc, getOwn_setKey_ne _ keyC k _ hkc]
            exact hg1
          · rw [if_neg htc]
            exact hg1
      have hg3 : getOwn (if truthy (getProp src1 keyU) = true then
          setKey (if truthy (getProp src1 keyC) = true then
            setKey (setKey ret0 keyId (getProp src1 keyId)) keyC (getProp src1 keyC)
          else setKey ret0 keyId (getProp src1 keyId)) keyU (getProp src1 keyU)
        else (if truthy (getProp src1 keyC) = true then
            setKey (setKey ret0 keyId (getProp src1 keyId)) keyC (getProp src1 keyC)
          else setKey ret0 keyId (getProp src1 keyId))) k = some JsVal.vSentinel := by
        by_cases hku : k = keyU
        · subst hku
          rw [getProp, hs1]
          simp only [Option.getD_some, truthy]
          exact hg2
        · by_cases htu : truthy (getProp src1 keyU) = true
          · rw [if_pos htu, getOwn_setKey_ne _ keyU k _ hku]
            exact hg2
          · rw [if_neg htu]
            exact hg2
      cases rI with
      | true =>
        simp only [if_true]
        rw [getOwn_delKey_ne _ keyId k hkid]
        exact hg3
      | false =>
        simp only [Bool.false_eq_true, if_false]
        exact hg3
  · intro ret hb
    unfold build buildS at hb
    cases hbf : buildFields tm mn false cR defs src [] with
    | error e =>
      obtain ⟨e1, s1⟩ := e
      rw [hbf] at hb
      simp at hb
    | ok p =>
      obtain ⟨src1, ret0⟩ := p
      rw [hbf] at hb
      dsimp only at hb
      injection hb with hb1
      obtain ⟨hs1, hs2⟩ := bf_undef_skip tm mn cR k defs src [] src1 ret0 hsrc hbf
      rw [← hb1]
      have hg1 : getOwn (setKey ret0 keyId (getProp src1 keyId)) k = none := by
        rw [getOwn_setKey_ne ret0 keyId k _ hkid, hs2]
        rfl
      have hg2 : getOwn (if truthy (getProp src1 keyC) = true then
          setKey (setKey ret0 keyId (getProp src1 keyId)) keyC (getProp src1 keyC)
        else setKey ret0 keyId (getProp src1 keyId)) k = none := by
        by_cases hkc : k = keyC
        · subst hkc
          rw [getProp, hs1]
          simp only [Option.getD_some, truthy]
          exact hg1
        · by_cases htc : truthy (getProp src1 keyC) = true
          · rw [if_pos htc, getOwn_setKey_ne _ keyC k _ hkc]
            exact hg1
          · rw [if_neg htc]
            exact hg1
      have hg3 : getOwn (if truthy (getProp src1 keyU) = true then
          setKey (if truthy (getProp src1 keyC) = true then
            setKey (setKey ret0 keyId (getProp src1 keyId)) keyC (getProp src1 keyC)
          else setKey ret0 keyId (getProp src1 keyId)) keyU (getProp src1 keyU)
        else (if truthy (getProp src1 keyC) = true then
            setKey (setKey ret0 keyId (getProp src1 keyId)) keyC (getProp src1 keyC)
          else setKey ret0 keyId (getProp src1 keyId))) k = none := by
        by_cases hku : k = keyU
        · subst hku
          rw [getProp, hs1]
          simp only [Option.getD_some, truthy]
          exact hg2
        · by_cases htu : truthy (getProp src1 keyU) = true
          · rw [if_pos htu, getOwn_setKey_ne _ keyU k _ hku]
            exact hg2
          · rw [if_neg htu]
            exact hg2
      cases rI with
      | true =>
        simp only [if_true]
        rw [hasOwn, getOwn_delKey_ne _ keyId k hkid, hg3]
        rfl
      | false =>
        simp only [Bool.false_eq_true, if_false]
        rw [hasOwn, hg3]
        rfl

/-- Claim C7 witness: the amended delete-marker law applied to one
free-form field explicitly set to undefined. -/
theorem c7_delete_marker_witness :
    getOwn [(kA, JsVal.vSentinel), (keyId, JsVal.vUndef)] kA = some JsVal.vSentinel ∧
    hasOwn [(keyId, JsVal.vUndef)] kA = false := by
  constructor
  · exact (c7_delete_marker_amended tmId mName0 defsFree srcAUndef false false kA FieldDef.freeform
      (by simp [defsFree]) (by decide) rfl).1 [(kA, JsVal.vSentinel), (keyId, JsVal.vUndef)] rfl
  · exact (c7_delete_marker_amended tmId mName0 defsFree srcAUndef false false kA FieldDef.freeform
      (by simp [defsFree]) (by decide) rfl).2 [(keyId, JsVal.vUndef)] rfl

/-- Claim C10: with cleanRefs set, a null value in a Reference-declared
field, or a null element in an ArrayOf(Reference) field, makes build
raise a build failure: reference collapsing sees typeof null as object
and the read of its id property throws, so null is never passed through
as a bare identity. -/
theorem c10_null_reference : ∀ (tm : TypeModules) (mn : String)
    (defs : List (String × FieldDef)) (src : Obj) (rI iD : Bool) (k t : String),
    (defs.map Prod.fst).Nodup →
    ((k, FieldDef.ref t) ∈ defs → getOwn src k = some JsVal.vNull →
      ∃ e, build tm mn defs src rI iD true = Except.error e) ∧
    (∀ vs, (k, FieldDef.arrayOf (FieldDef.ref t)) ∈ defs →
      getOwn src k = some (JsVal.vArr vs) → JsVal.vNull ∈ vs →
      ∃ e, build tm mn defs src rI iD true = Except.error e) := by
  intro tm mn defs src rI iD k t hnd
  constructor
  · intro hmem hsrc
    obtain ⟨e, s, hE⟩ := bf_null_refField tm mn iD k t defs src [] hnd hmem hsrc
    exact ⟨e, by simp [build, buildS, hE]⟩
  · intro vs hmem hsrc hnull
    obtain ⟨e, s, hE⟩ := bf_null_refArray tm mn iD k t defs src [] vs hnd hmem hsrc hnull
    exact ⟨e, by simp [build, buildS, hE]⟩

/-- Claim C10 witness: the null-reference law applied to a single
Reference field holding null and to a reference array containing a
null element. -/
theorem c10_null_reference_witness :
    (∃ e, build tmId mName0 defsRefOnly srcRNull false false true = Except.error e) ∧
    (∃ e, build tmId mName0 defsArrRefA srcANullArr false false true = Except.error e) := by
  constructor
  · exact (c10_null_reference tmId mName0 defsRefOnly srcRNull false false kR target0
      (by decide)).1 (by simp [defsRefOnly]) rfl
  · exact (c10_null_reference tmId mName0 defsArrRefA srcANullArr false false kA target0
      (by decide)).2 [JsVal.vNull] (by simp [defsArrRefA]) rfl (by simp)

/-- Claim C2 counterexample: a registered virtual whose target model
name resolves to no model in the registry makes applyVirtuals raise a
TypeError (the find call happens on the undefined lookup result), not
degrade to a nothing-found result. -/
theorem c2_unresolved_model_refuted :
    doVirtuals [] [virtEx] [] = Except.error typeErrFindVirt := rfl

/-- Claim C2 amended: an unresolved populate or virtual target model
name raises a TypeError as soon as a fetch is attempted — always for a
virtual descriptor, and for a populate descriptor whenever the field
holds a value to fetch (a defined single value, or an array containing
a defined element); it degrades silently only when no fetch is needed
(an undefined single value, or an absent or empty array field, which
yields the empty array). -/
theorem c2_unresolved_model_amended :
    (∀ (models : List ModelStub) (v : VirtualEntry) (obj : Obj),
      findModel models v.virtualDef.ref = none →
      doVirtuals models [v] obj = Except.error typeErrFindVirt) ∧
    (∀ (models : List ModelStub) (fds : List (String × FieldDef)) (p : PopulateDef) (obj : Obj),
      findModel models p.model = none →
      (lookupFd fds p.path).any isArrayDef = false →
      isUndef (getProp obj p.path) = false →
      doPopulates models fds [p] obj [] = Except.error typeErrFindById) ∧
    (∀ (models : List ModelStub) (fds : List (String × FieldDef)) (p : PopulateDef) (obj : Obj)
        (vs : List JsVal),
      findModel models p.model = none →
      (lookupFd fds p.path).any isArrayDef = true →
      getOwn obj p.path = some (JsVal.vArr vs) →
      (∃ r ∈ vs, isUndef r = false) →
      doPopulates models fds [p] obj [] = Except.error typeErrFindById) ∧
    (∀ (models : List ModelStub) (fds : List (String × FieldDef)) (p : PopulateDef) (obj : Obj),
      findModel models p.model = none →
      (lookupFd fds p.path).any isArrayDef = true →
      hasOwn obj p.path = false →
      doPopulates models fds [p] obj [] = Except.ok (setKey obj p.path (JsVal.vArr []), [])) ∧
    (∀ (models : List ModelStub) (fds : List (String × FieldDef)) (p : PopulateDef) (obj : Obj),
      findModel models p.model = none →
      (lookupFd fds p.path).any isArrayDef = true →
      getOwn obj p.path = some (JsVal.vArr []) →
      doPopulates models fds [p] obj [] = Except.ok (setKey obj p.path (JsVal.vArr []), [])) ∧
    (∀ (models : List ModelStub) (fds : List (String × FieldDef)) (p : PopulateDef) (obj : Obj),
      findModel models p.model = none →
      (lookupFd fds p.path).any isArrayDef = false →
      isUndef (getProp obj p.path) = true →
      doPopulates models fds [p] obj [] = Except.ok (obj, [])) := by
  refine ⟨?_, ?_, ?_, ?_, ?_, ?_⟩
  · intro models v obj hfind
    simp [doVirtuals, hfind]
  · intro models fds p obj hfind harr hundef
    simp [doPopulates, doPopulatesStep, hfind, harr, hundef]
  · intro models fds p obj vs hfind harr hobj hex
    have hgp : getProp obj p.path = JsVal.vArr vs := by simp [getProp, hobj]
    have hne : vs ≠ [] := by
      obtain ⟨r, hr, _⟩ := hex
      exact List.ne_nil_of_mem hr
    have hlen : lenPos (JsVal.vArr vs) = true := by
      simp [lenPos, List.length_pos, hne]
    have hpf := popFetch_none p.model vs hex
    simp [doPopulates, doPopulatesStep, hfind, harr, hgp, hlen, truthy, iterateVals, hpf]
  · intro models fds p obj hfind harr hho
    have hgo : getOwn obj p.path = none := by
      cases hgo : getOwn obj p.path with
      | none => rfl
      | some v => rw [hasOwn, hgo] at hho; cases hho
    have hgp : getProp obj p.path = JsVal.vUndef := by simp [getProp, hgo]
    simp [doPopulates, doPopulatesStep, hfind, harr, hgp, truthy]
  · intro models fds p obj hfind harr hobj
    have hgp : getProp obj p.path = JsVal.vArr [] := by simp [getProp, hobj]
    simp [doPopulates, doPopulatesStep, hfind, harr, hgp, truthy, lenPos]
  · intro models fds p obj hfind harr hundef
    simp [doPopulates, doPopulatesStep, hfind, harr, hundef]

/-- Claim C2 amended witness: each clause of the amended law applied at
a concrete registry with no matching model. -/
theorem c2_unresolved_model_witness :
    doVirtuals [] [virtEx] [(kL, JsVal.vStr idA)] = Except.error typeErrFindVirt ∧
    doPopulates [] defsRefOnly [popMissing] srcRefStr [] = Except.error typeErrFindById ∧
    doPopulates [] defsArrRef [popMissing] srcOneId [] = Except.error typeErrFindById ∧
    doPopulates [] defsArrRef [popMissing] [] [] =
      Except.ok (setKey [] kR (JsVal.vArr []), []) ∧
    doPopulates [] defsArrRef [popMissing] srcEmptyArr [] =
      Except.ok (setKey srcEmptyArr kR (JsVal.vArr []), []) ∧
    doPopulates [] defsRefOnly [popMissing] [] [] = Except.ok ([], []) := by
  refine ⟨?_, ?_, ?_, ?_, ?_, ?_⟩
  · exact c2_unresolved_model_amended.1 [] virtEx [(kL, JsVal.vStr idA)] rfl
  · exact c2_unresolved_model_amended.2.1 [] defsRefOnly popMissing srcRefStr rfl rfl rfl
  · exact c2_unresolved_model_amended.2.2.1 [] defsArrRef popMissing srcOneId
      [JsVal.vStr idA] rfl rfl rfl ⟨JsVal.vStr idA, by simp, rfl⟩
  · exact c2_unresolved_model_amended.2.2.2.1 [] defsArrRef popMissing [] rfl rfl rfl
  · exact c2_unresolved_model_amended.2.2.2.2.1 [] defsArrRef popMissing srcEmptyArr rfl rfl rfl
  · exact c2_unresolved_model_amended.2.2.2.2.2 [] defsRefOnly popMissing [] rfl rfl rfl

/-- Claim C8: applyPopulates on an array-of-references field replaces
it with the fetched documents of its defined identities, in input
order, tracing one sequential fetch per defined element; an absent
field (and likewise an empty array) is replaced by the empty array
with no fetch issued to the target model. -/
theorem c8_populate_order : ∀ (f : JsVal → Bool → JsVal)
    (g : String → String → JsVal → Bool → JsVal) (name path : String)
    (e : FieldDef) (fds : List (String × FieldDef)) (obj : Obj),
    lookupFd fds path = some (FieldDef.arrayOf e) →
    ((∀ vs, getOwn obj path = some (JsVal.vArr vs) →
      doPopulates [{ modelName := name, findById := f, find := g }] fds
          [{ path := path, model := name }] obj [] =
        Except.ok (setKey obj path
            (JsVal.vArr ((vs.filter (fun r => !(isUndef r))).map (fun r => f r true))),
          (vs.filter (fun r => !(isUndef r))).map (fun r => (name, r)))) ∧
     (hasOwn obj path = false →
      doPopulates [{ modelName := name, findById := f, find := g }] fds
          [{ path := path, model := name }] obj [] =
        Except.ok (setKey obj path (JsVal.vArr []), []))) := by
  intro f g name path e fds obj hfd
  have hfind : findModel [{ modelName := name, findById := f, find := g }] name =
      some { modelName := name, findById := f, find := g } := by
    simp [findModel]
  constructor
  · intro vs hobj
    have hgp : getProp obj path = JsVal.vArr vs := by simp [getProp, hobj]
    cases vs with
    | nil =>
      simp [doPopulates, doPopulatesStep, hfind, hfd, hgp, truthy, lenPos, isArrayDef]
    | cons v rest =>
      have hpf := popFetch_some { modelName := name, findById := f, find := g } name (v :: rest)
      simp [doPopulates, doPopulatesStep, hfind, hfd, hgp, truthy, lenPos, isArrayDef,
        iterateVals, hpf]
  · intro hho
    have hgo : getOwn obj path = none := by
      cases hgo : getOwn obj path with
      | none => rfl
      | some v => rw [hasOwn, hgo] at hho; cases hho
    have hgp : getProp obj path = JsVal.vUndef := by simp [getProp, hgo]
    simp [doPopulates, doPopulatesStep, hfind, hfd, hgp, truthy, isArrayDef]

/-- Claim C8 witness: a stub model fetched over the identity array
[id1, undefined, id2, id3] yields the documents of the three defined
identities in input order with a matching fetch trace, and an absent
field yields the empty array with an empty trace. -/
theorem c8_populate_order_witness :
    doPopulates [{ modelName := target0, findById := fetchStub, find := findStub }] defsArrRef
        [{ path := kR, model := target0 }] srcIds [] =
      Except.ok (setKey srcIds kR
          (JsVal.vArr ((([JsVal.vStr idA, JsVal.vUndef, JsVal.vStr idB, JsVal.vStr idC].filter
              (fun r => !(isUndef r))).map (fun r => fetchStub r true)))),
        ([JsVal.vStr idA, JsVal.vUndef, JsVal.vStr idB, JsVal.vStr idC].filter
            (fun r => !(isUndef r))).map (fun r => (target0, r))) ∧
    doPopulates [{ modelName := target0, findById := fetchStub, find := findStub }] defsArrRef
        [{ path := kR, model := target0 }] [] [] =
      Except.ok (setKey [] kR (JsVal.vArr []), []) := by
  constructor
  · exact (c8_populate_order fetchStub findStub target0 kR (FieldDef.ref target0)
      defsArrRef srcIds rfl).1 [JsVal.vStr idA, JsVal.vUndef, JsVal.vStr idB, JsVal.vStr idC] rfl
  · exact (c8_populate_order fetchStub findStub target0 kR (FieldDef.ref target0)
      defsArrRef [] rfl).2 rfl

/-- Claim C6: when a declared field that is an own source property with
a defined value fails its type validation (and every earlier declared
field processed successfully), build raises — returning no result —
and the raised message contains the owning model name, the field key,
and the stringified offending value. -/
theorem c6_failure_message : ∀ (tm : TypeModules) (mn : String)
    (defs1 defs2 : List (String × FieldDef)) (k : String) (fd : FieldDef)
    (src : Obj) (rI iD : Bool) (v : JsVal) (e : String) (sA rA : Obj),
    buildFields tm mn iD false defs1 src [] = Except.ok (sA, rA) →
    getOwn src k = some v →
    isUndef v = false →
    validateField tm mn k fd v = Except.error e →
    ∃ m, build tm mn (defs1 ++ (k, fd) :: defs2) src rI iD false = Except.error m ∧
      (∃ p q, m = p ++ mn ++ q) ∧ (∃ p q, m = p ++ k ++ q) ∧
      (∃ p q, m = p ++ jsToString v ++ q) := by
  intro tm mn defs1 defs2 k fd src rI iD v e sA rA hpre hsrc hundef hval
  have hsA : sA = src := by
    have hx := buildFields_false_src tm mn iD defs1 src []
    rw [hpre] at hx
    simpa [exSrc] using hx
  rw [hsA] at hpre
  have hstep : buildStep tm mn iD false k fd src rA = Except.error (buildErr mn e, src) := by
    have hho : hasOwn src k = true := by simp [hasOwn, hsrc]
    have hgp : getProp src k = v := by simp [getProp, hsrc]
    simp [buildStep, hho, hgp, hundef, hval]
  have hbf : buildFields tm mn iD false (defs1 ++ (k, fd) :: defs2) src [] =
      Except.error (buildErr mn e, src) := by
    rw [buildFields_append, hpre]
    simp [buildFields, hstep]
  refine ⟨buildErr mn e, by simp [build, buildS, hbf], ?_, ?_, ?_⟩
  · exact ⟨msgProcA, msgProcB ++ e, by simp [buildErr, strAssoc]⟩
  · obtain ⟨lbl, hlbl⟩ := validateField_error_shape tm mn k fd v e hval
    subst hlbl
    exact ⟨msgProcA ++ mn ++ msgProcB ++ mn ++ msgPropA,
           msgPropB ++ lbl ++ msgPropC ++ jsToString v ++ msgDot,
           by simp [buildErr, vmsg, strAssoc]⟩
  · obtain ⟨lbl, hlbl⟩ := validateField_error_shape tm mn k fd v e hval
    subst hlbl
    exact ⟨msgProcA ++ mn ++ msgProcB ++ mn ++ msgPropA ++ k ++ msgPropB ++ lbl ++ msgPropC,
           msgDot, by simp [buildErr, vmsg, strAssoc]⟩

/-- Claim C6 witness: a text field holding the number 7 under the
shape-checking type modules makes build fail with a message containing
the model name, the key and the value. -/
theorem c6_failure_message_witness :
    ∃ m, build tmStrict mName0 ([] ++ (kS, FieldDef.scalar ScalarKind.text) :: []) srcS7
        false false false = Except.error m ∧
      (∃ p q, m = p ++ mName0 ++ q) ∧ (∃ p q, m = p ++ kS ++ q) ∧
      (∃ p q, m = p ++ jsToString (JsVal.vNum 7) ++ q) :=
  c6_failure_message tmStrict mName0 [] [] kS (FieldDef.scalar ScalarKind.text) srcS7 false false
    (JsVal.vNum 7) (vmsg mName0 kS lblString (JsVal.vNum 7)) srcS7 [] rfl rfl rfl rfl

end Firearch
